import Mathlib

/-!
Verification development for the data-herbapedia maintenance scripts.

Each JavaScript script is shallowly embedded as executable Lean
definitions (strings as `String`/`List Char`, JSON objects as
association lists, network calls as explicit oracles).  Definition
names follow the source files:

* scripts/fill-translations.js   → namespace FillTranslations
* scripts/fix-scientific-names.js → namespace FixNames
* scripts/validate.js            → namespace Validate
* scripts/link-gbif.js           → namespace LinkGbif
* scripts/link-wikidata.js       → namespace LinkWikidata
* scripts/build-index.js         → namespace BuildIndex

Theorems named after claims C1–C10 follow at the end of each section.
-/

namespace JsUtil

/-- Substring scan on character lists. -/
def occursInL (pat : List Char) : List Char → Bool
  | [] => pat.isEmpty
  | c :: cs => pat.isPrefixOf (c :: cs) || occursInL pat cs

/-- Substring test, modelling JavaScript `String.prototype.includes`. -/
def occursIn (pat s : String) : Bool :=
  occursInL pat.data s.data

/-- Whitespace class of JavaScript regular expressions (`\s`) and of
`String.prototype.trim`, restricted to the ASCII range (the corpus and
all string constants in the scripts are ASCII or CJK, never exotic
Unicode whitespace). -/
def isJsWs (c : Char) : Bool :=
  c = ' ' ∨ c = '\t' ∨ c = '\n' ∨ c = '\r' ∨ c = Char.ofNat 11 ∨ c = Char.ofNat 12

/-- Model of JavaScript `String.prototype.trim`. -/
def jsTrim (s : String) : String :=
  ⟨((s.data.dropWhile isJsWs).reverse.dropWhile isJsWs).reverse⟩

/-- Replacement of every occurrence of `pat` (non-empty) by `repl`,
scanning left to right: the semantics of JavaScript
`s.split(pat).join(repl)` and of `String.prototype.replace` with a
global-flag literal pattern.  The fuel argument only forces
termination; since each step consumes at least one input character,
fuel `s.length` always suffices (see `replaceAllL_single`). -/
def replaceAllL (pat repl : List Char) : Nat → List Char → List Char
  | _, [] => []
  | 0, s => s
  | fuel + 1, c :: cs =>
    if pat ≠ [] ∧ pat.isPrefixOf (c :: cs) then
      repl ++ replaceAllL pat repl fuel ((c :: cs).drop pat.length)
    else
      c :: replaceAllL pat repl fuel cs

/-- String-level wrapper for `replaceAllL`. -/
def jsReplaceAll (pat repl s : String) : String :=
  ⟨replaceAllL pat.data repl.data s.data.length s.data⟩

/-- Replacement of only the first occurrence of `pat`: the semantics of
JavaScript `String.prototype.replace` with a plain string pattern. -/
def replaceFirstL (pat repl : List Char) : List Char → List Char
  | [] => []
  | c :: cs =>
    if pat ≠ [] ∧ pat.isPrefixOf (c :: cs) then
      repl ++ (c :: cs).drop pat.length
    else
      c :: replaceFirstL pat repl cs

/-- String-level wrapper for `replaceFirstL`. -/
def jsReplaceFirst (pat repl s : String) : String :=
  ⟨replaceFirstL pat.data repl.data s.data⟩

/-- Behaviour of `replaceAllL` on a single-character pattern and
single-character replacement: it is exactly a character-wise map.  This
also shows the fuel `xs.length` suffices. -/
theorem replaceAllL_single (t s' : Char) :
    ∀ fuel xs, xs.length ≤ fuel →
      replaceAllL [t] [s'] fuel xs = xs.map (fun c => if c = t then s' else c) := by
  intro fuel
  induction fuel with
  | zero =>
    intro xs hxs
    cases xs with
    | nil => rfl
    | cons c cs => simp at hxs
  | succ n ih =>
    intro xs hxs
    cases xs with
    | nil => rfl
    | cons c cs =>
      simp only [List.length_cons, Nat.succ_le_succ_iff] at hxs
      by_cases hc : c = t
      · subst hc
        have hpre : [c].isPrefixOf (c :: cs) = true := by
          simp [List.isPrefixOf]
        simp [replaceAllL, hpre, ih cs hxs]
      · have hpre : [t].isPrefixOf (c :: cs) = false := by
          simp [List.isPrefixOf]
          exact fun h => absurd h.symm hc
        simp [replaceAllL, hpre, hc, ih cs hxs]

end JsUtil

namespace FillTranslations

open JsUtil

/-- CHAR_MAP from scripts/fill-translations.js (lines 18–45): the
traditional→simplified character table.  Every key and value in the
JavaScript object literal is a single character; duplicate keys in the
literal (劑 奮 鎮 體 統 種 關 動 據 進) collapse at object creation —
each duplicate carries the same value, so the entry list below keeps
each key once, in first-occurrence order, which is the order
`Object.entries` yields. -/
def CHAR_MAP : List (Char × Char) :=
  [('藥', '药'), ('醫', '医'), ('學', '学'), ('蔘', '参'),
   ('氣', '气'), ('補', '补'), ('養', '养'), ('實', '实'), ('虛', '虚'),
   ('熱', '热'), ('證', '证'), ('脈', '脉'), ('驚', '惊'), ('體', '体'),
   ('腎', '肾'), ('膽', '胆'), ('腸', '肠'), ('腦', '脑'),
   ('陰', '阴'), ('陽', '阳'), ('經', '经'), ('絡', '络'), ('臟', '脏'),
   ('膚', '肤'), ('髮', '发'), ('顏', '颜'), ('額', '额'), ('頭', '头'),
   ('劑', '剂'), ('療', '疗'), ('驗', '验'), ('礙', '碍'),
   ('鎮', '镇'), ('靜', '静'), ('奮', '奋'), ('關', '关'), ('節', '节'),
   ('變', '变'), ('膠', '胶'), ('顆', '颗'), ('貼', '贴'), ('飲', '饮'),
   ('湯', '汤'), ('衝', '冲'), ('質', '质'), ('種', '种'), ('類', '类'),
   ('屬', '属'), ('漿', '浆'), ('濃', '浓'), ('備', '备'), ('製', '制'),
   ('葉', '叶'), ('後', '后'), ('乾', '干'), ('濕', '湿'), ('澀', '涩'),
   ('鹹', '咸'), ('鬱', '郁'), ('積', '积'), ('穩', '稳'), ('動', '动'),
   ('細', '细'), ('軟', '软'), ('硬', '硬'), ('緩', '缓'), ('銳', '锐'),
   ('黏', '黏'), ('潤', '润'), ('歷', '历'), ('紀', '纪'), ('記', '记'),
   ('載', '载'), ('錄', '录'), ('傳', '传'), ('統', '统'), ('說', '说'),
   ('調', '调'), ('強', '强'), ('壯', '壮'), ('興', '兴'),
   ('安', '安'), ('神', '神'), ('精', '精'),
   ('華', '华'), ('國', '国'), ('東', '东'), ('區', '区'), ('專', '专'),
   ('業', '业'), ('書', '书'), ('據', '据'), ('結', '结'),
   ('構', '构'), ('機', '机'), ('系', '系'),
   ('樣', '样'), ('這', '这'), ('麼', '么'), ('時', '时'), ('們', '们'),
   ('個', '个'), ('為', '为'), ('與', '与'), ('及', '及'), ('或', '或'),
   ('將', '将'), ('於', '于'), ('由', '由'), ('來', '来'),
   ('長', '长'), ('開', '开'), ('進', '进'), ('過', '过'),
   ('運', '运'), ('還', '还'), ('應', '应')]

/-- Function tradToSimp from scripts/fill-translations.js (lines
106–113).  The source iterates `Object.entries(CHAR_MAP)` and performs
`result = result.split(trad).join(simp)` for each entry, which for a
non-empty pattern is replace-all; the empty-string guard mirrors
`if (!text) return text`. -/
def tradToSimp (text : String) : String :=
  if text = "" then text
  else CHAR_MAP.foldl (fun result p => jsReplaceAll ⟨[p.1]⟩ ⟨[p.2]⟩ result) text

/-- Character-level effect of one pass of the CHAR_MAP fold: each
character is pushed through the rule list in declaration order. -/
def applyCharRules (c : Char) : Char :=
  CHAR_MAP.foldl (fun a p => if a = p.1 then p.2 else a) c

/-- Single lookup in the character table, keeping characters outside the
table unchanged (the spec reading of "one-to-one glyph mapping"). -/
def charSubstTable (c : Char) : Char :=
  match CHAR_MAP.find? (fun p => p.1 == c) with
  | some p => p.2
  | none => c

theorem foldl_replace_eq_map (l : List (Char × Char)) :
    ∀ xs : List Char,
      l.foldl (fun (result : String) p => jsReplaceAll ⟨[p.1]⟩ ⟨[p.2]⟩ result) ⟨xs⟩ =
        ⟨xs.map (fun c => l.foldl (fun a p => if a = p.1 then p.2 else a) c)⟩ := by
  induction l with
  | nil => intro xs; simp
  | cons hd tl ih =>
    intro xs
    have hstep : jsReplaceAll ⟨[hd.1]⟩ ⟨[hd.2]⟩ ⟨xs⟩ =
        ⟨xs.map (fun c => if c = hd.1 then hd.2 else c)⟩ := by
      show (⟨replaceAllL [hd.1] [hd.2] xs.length xs⟩ : String) = _
      rw [replaceAllL_single hd.1 hd.2 xs.length xs (Nat.le_refl _)]
    simp only [List.foldl_cons, hstep, ih, List.map_map]
    rfl

theorem applyCharRules_of_no_key :
    ∀ (l : List (Char × Char)) (a : Char), (∀ p ∈ l, a ≠ p.1) →
      l.foldl (fun a p => if a = p.1 then p.2 else a) a = a := by
  intro l
  induction l with
  | nil => intro a _; rfl
  | cons hd tl ih =>
    intro a h
    have h1 : a ≠ hd.1 := h hd (List.mem_cons_self hd tl)
    simp only [List.foldl_cons, if_neg h1]
    exact ih a (fun p hp => h p (List.mem_cons_of_mem hd hp))

set_option maxRecDepth 8000 in
theorem charRules_interference_free :
    ∀ p ∈ CHAR_MAP, applyCharRules p.1 = charSubstTable p.1 ∧ applyCharRules p.2 = p.2 := by
  decide

theorem applyCharRules_eq_table (c : Char) : applyCharRules c = charSubstTable c := by
  cases h : CHAR_MAP.find? (fun p => p.1 == c) with
  | none =>
    have hall := List.find?_eq_none.mp h
    have h1 : applyCharRules c = c := by
      apply applyCharRules_of_no_key
      intro p hp hc
      exact hall p hp (by simp [hc])
    rw [h1, charSubstTable, h]
  | some p =>
    have hmem : p ∈ CHAR_MAP := List.mem_of_find?_eq_some h
    have hkey : p.1 = c := by
      have h2 := List.find?_some h
      simpa using h2
    have h3 := (charRules_interference_free p hmem).1
    rw [← hkey]
    exact h3

theorem charSubstTable_idem (c : Char) : charSubstTable (charSubstTable c) = charSubstTable c := by
  cases h : CHAR_MAP.find? (fun p => p.1 == c) with
  | none =>
    have hc : charSubstTable c = c := by rw [charSubstTable, h]
    rw [hc, hc]
  | some p =>
    have hmem : p ∈ CHAR_MAP := List.mem_of_find?_eq_some h
    have hc : charSubstTable c = p.2 := by rw [charSubstTable, h]
    have h2 : applyCharRules p.2 = p.2 := (charRules_interference_free p hmem).2
    rw [hc, ← applyCharRules_eq_table, h2]

theorem tradToSimp_eq_map (s : String) : tradToSimp s = ⟨s.data.map charSubstTable⟩ := by
  rw [tradToSimp]
  by_cases hs : s = ""
  · subst hs; rfl
  · rw [if_neg hs]
    have : s = ⟨s.data⟩ := rfl
    rw [this, foldl_replace_eq_map CHAR_MAP s.data]
    have : ∀ c, applyCharRules c = charSubstTable c := applyCharRules_eq_table
    simp only [applyCharRules] at this
    simp [this]

end FillTranslations

/-- C10: the traditional→simplified conversion `tradToSimp` is exactly a
character-wise substitution through the CHAR_MAP table, every character
outside the table is left unchanged, and the conversion is idempotent
(no character produced by the table is itself remapped). -/
theorem C10_tradToSimp_charwise_idempotent (s : String) :
    (FillTranslations.tradToSimp s).data = s.data.map FillTranslations.charSubstTable
    ∧ FillTranslations.tradToSimp (FillTranslations.tradToSimp s) =
        FillTranslations.tradToSimp s
    ∧ (∀ c : Char, FillTranslations.CHAR_MAP.find? (fun p => p.1 == c) = none →
        FillTranslations.tradToSimp ⟨[c]⟩ = ⟨[c]⟩) := by
  refine ⟨by rw [FillTranslations.tradToSimp_eq_map], ?_, ?_⟩
  · rw [FillTranslations.tradToSimp_eq_map s,
      FillTranslations.tradToSimp_eq_map ⟨s.data.map FillTranslations.charSubstTable⟩]
    show (⟨(s.data.map _).map _⟩ : String) = _
    rw [List.map_map]
    have : ∀ c ∈ s.data,
        (FillTranslations.charSubstTable ∘ FillTranslations.charSubstTable) c =
          FillTranslations.charSubstTable c := fun c _ =>
      FillTranslations.charSubstTable_idem c
    rw [List.map_congr_left this]
  · intro c hc
    rw [FillTranslations.tradToSimp_eq_map]
    show (⟨[FillTranslations.charSubstTable c]⟩ : String) = _
    rw [FillTranslations.charSubstTable, hc]

/-- Witness for C10 at concrete inputs: idempotence on a concrete string
and stability of a character outside the table. -/
theorem C10_tradToSimp_charwise_idempotent_witness :
    FillTranslations.tradToSimp (FillTranslations.tradToSimp "補中益氣湯藥") =
      FillTranslations.tradToSimp "補中益氣湯藥"
    ∧ FillTranslations.tradToSimp ⟨['Q']⟩ = ⟨['Q']⟩ :=
  ⟨(C10_tradToSimp_charwise_idempotent "補中益氣湯藥").2.1,
   (C10_tradToSimp_charwise_idempotent "x").2.2 'Q' (by decide)⟩

namespace JsUtil

/-- LanguageMap from types/core.ts: a JSON object mapping language tags
to text, embedded as an association list in document order. -/
abbrev LangMap := List (String × String)

/-- Property read on a JSON object.  JSON.parse collapses duplicate keys
keeping the last one, so the last binding wins. -/
def jsGet : LangMap → String → Option String
  | [], _ => none
  | e :: rest, k =>
    match jsGet rest k with
    | some v => some v
    | none => if e.1 = k then some e.2 else none

/-- Truthiness of a property read: absent and empty-string values are
falsy in JavaScript. -/
def truthyGet (m : LangMap) (k : String) : Bool :=
  match jsGet m k with
  | some v => v ≠ ""
  | none => false

/-- Property assignment on a JSON object: overwrite in place when the
key exists, append otherwise. -/
def jsSet (m : LangMap) (k v : String) : LangMap :=
  if m.any (fun e => e.1 = k) then m.map (fun e => if e.1 = k then (e.1, v) else e)
  else m ++ [(k, v)]

/-- Optional-chain read `obj?.[k]` on an optional object. -/
def getOpt (m : Option LangMap) (k : String) : Option String :=
  m.bind (fun mm => jsGet mm k)

/-- Truthiness of an optional-chain read. -/
def truthyOpt (m : Option LangMap) (k : String) : Bool :=
  match m with
  | some mm => truthyGet mm k
  | none => false

/-- JavaScript `a || b` for an optionally-present string `a`. -/
def jsOrS (a : Option String) (b : String) : String :=
  match a with
  | some s => if s = "" then b else s
  | none => b

theorem jsGet_append (xs ys : LangMap) (k : String) :
    jsGet (xs ++ ys) k = match jsGet ys k with
      | some v => some v
      | none => jsGet xs k := by
  induction xs with
  | nil =>
    show jsGet ys k = _
    cases h : jsGet ys k <;> simp [jsGet]
  | cons e rest ih =>
    show jsGet (e :: (rest ++ ys)) k = _
    rw [jsGet, ih]
    cases h : jsGet ys k <;> simp [jsGet]

theorem jsGet_eq_none_of_no_key (m : LangMap) (k : String)
    (h : ∀ e ∈ m, e.1 ≠ k) : jsGet m k = none := by
  induction m with
  | nil => rfl
  | cons e rest ih =>
    rw [jsGet, ih (fun x hx => h x (List.mem_cons_of_mem e hx))]
    simp [h e (List.mem_cons_self e rest)]

theorem jsGet_map_update_other (m : LangMap) (k k' v : String) (hk : k' ≠ k) :
    jsGet (m.map (fun e => if e.1 = k then (e.1, v) else e)) k' = jsGet m k' := by
  induction m with
  | nil => rfl
  | cons e rest ih =>
    show jsGet ((if e.1 = k then (e.1, v) else e) :: _) k' = _
    rw [jsGet, jsGet, ih]
    cases h : jsGet rest k' with
    | some w => rfl
    | none =>
      by_cases he : e.1 = k
      · simp [he, Ne.symm hk]
      · simp [he]

theorem jsGet_map_update_same (m : LangMap) (k v : String)
    (h : m.any (fun e => e.1 = k) = true) :
    jsGet (m.map (fun e => if e.1 = k then (e.1, v) else e)) k = some v := by
  induction m with
  | nil => simp at h
  | cons e rest ih =>
    show jsGet ((if e.1 = k then (e.1, v) else e) :: _) k = _
    rw [jsGet]
    by_cases hr : rest.any (fun e => e.1 = k) = true
    · rw [ih hr]
    · have hrest : jsGet (rest.map (fun e => if e.1 = k then (e.1, v) else e)) k = none := by
        apply jsGet_eq_none_of_no_key
        intro x hx
        obtain ⟨y, hy, hyx⟩ := List.mem_map.mp hx
        by_cases hy1 : y.1 = k
        · exact absurd (List.any_eq_true.mpr ⟨y, hy, by simp [hy1]⟩) hr
        · rw [← hyx]; simp [hy1]
      rw [hrest]
      have he : e.1 = k := by
        rcases List.any_eq_true.mp h with ⟨x, hx, hx1⟩
        rcases List.mem_cons.mp hx with h1 | h2
        · simp at hx1; rw [← h1]; exact hx1
        · exact absurd (List.any_eq_true.mpr ⟨x, h2, hx1⟩) hr
      simp [he]

theorem jsGet_jsSet_same (m : LangMap) (k v : String) :
    jsGet (jsSet m k v) k = some v := by
  rw [jsSet]
  by_cases h : m.any (fun e => e.1 = k) = true
  · rw [if_pos h]; exact jsGet_map_update_same m k v h
  · rw [if_neg h, jsGet_append]
    simp [jsGet]

theorem jsGet_jsSet_other (m : LangMap) (k k' v : String) (hk : k' ≠ k) :
    jsGet (jsSet m k v) k' = jsGet m k' := by
  rw [jsSet]
  by_cases h : m.any (fun e => e.1 = k) = true
  · rw [if_pos h]; exact jsGet_map_update_other m k k' v hk
  · rw [if_neg h, jsGet_append]
    simp [jsGet, Ne.symm hk]

theorem truthyGet_jsSet_same (m : LangMap) (k v : String) :
    truthyGet (jsSet m k v) k = (v ≠ "" : Bool) := by
  rw [truthyGet, jsGet_jsSet_same]

theorem truthyGet_jsSet_other (m : LangMap) (k k' v : String) (hk : k' ≠ k) :
    truthyGet (jsSet m k v) k' = truthyGet m k' := by
  rw [truthyGet, jsGet_jsSet_other m k k' v hk, truthyGet]

/-- Key-set growth: filling never removes keys. -/
def mapSuperset (b a : LangMap) : Prop :=
  ∀ k, (jsGet b k).isSome → (jsGet a k).isSome

/-- Value stability: filling never alters a previously non-empty value. -/
def mapPreserves (b a : LangMap) : Prop :=
  ∀ k v, jsGet b k = some v → v ≠ "" → jsGet a k = some v

/-- Optional-object versions of the two relations. -/
def optSuperset (b a : Option LangMap) : Prop :=
  ∀ k, (getOpt b k).isSome → (getOpt a k).isSome

def optPreserves (b a : Option LangMap) : Prop :=
  ∀ k v, getOpt b k = some v → v ≠ "" → getOpt a k = some v

theorem mapSuperset_refl (m : LangMap) : mapSuperset m m := fun _ h => h

theorem mapPreserves_refl (m : LangMap) : mapPreserves m m := fun _ _ h _ => h

theorem mapSuperset_trans {a b c : LangMap} (h1 : mapSuperset a b) (h2 : mapSuperset b c) :
    mapSuperset a c := fun k hk => h2 k (h1 k hk)

theorem mapPreserves_trans {a b c : LangMap} (h1 : mapPreserves a b) (h2 : mapPreserves b c) :
    mapPreserves a c := fun k v hk hv => h2 k v (h1 k v hk hv) hv

theorem jsSet_superset (m : LangMap) (k v : String) : mapSuperset m (jsSet m k v) := by
  intro k' hk'
  by_cases h : k' = k
  · rw [h, jsGet_jsSet_same]; rfl
  · rw [jsGet_jsSet_other m k k' v h]; exact hk'

theorem jsSet_preserves (m : LangMap) (k v : String) (h : truthyGet m k = false) :
    mapPreserves m (jsSet m k v) := by
  intro k' w hk' hw
  by_cases hkk : k' = k
  · rw [hkk] at hk'
    rw [truthyGet, hk'] at h
    simp [hw] at h
  · rw [jsGet_jsSet_other m k k' v hkk]; exact hk'

theorem mapSuperset_ite (m : LangMap) (c : Bool) (k v : String) :
    mapSuperset m (if c then jsSet m k v else m) := by
  cases c
  · simp; exact mapSuperset_refl m
  · simp; exact jsSet_superset m k v

end JsUtil

namespace FillTranslations

open JsUtil

/-- AYURVEDA_TERMS from scripts/fill-translations.js (lines 48–88).
Field names zhHant/zhHans stand for the JSON keys zh-Hant/zh-Hans. -/
structure AyurTerm where
  zhHant : String
  zhHans : String
  desc : Option String
  deriving DecidableEq

/-- Entries of the AYURVEDA_TERMS object, in declaration order. -/
def AYURVEDA_TERMS : List (String × AyurTerm) :=
  [("Vata", ⟨"風型（瓦塔）", "风型（瓦塔）", some "主司運動、呼吸、循環及神經系統功能，由風與以太元素組成"⟩),
   ("Pitta", ⟨"火型（皮塔）", "火型（皮塔）", some "主司消化、代謝、轉化及體溫，由火與水元素組成"⟩),
   ("Kapha", ⟨"水型（卡法）", "水型（卡法）", some "主司結構、穩定、潤滑及免疫功能，由土與水元素組成"⟩),
   ("Guru", ⟨"重", "重", none⟩), ("Laghu", ⟨"輕", "轻", none⟩),
   ("Sheeta", ⟨"寒", "寒", none⟩), ("Ushna", ⟨"熱", "热", none⟩),
   ("Snigdha", ⟨"油潤", "油润", none⟩), ("Ruksha", ⟨"乾燥", "干燥", none⟩),
   ("Manda", ⟨"緩", "缓", none⟩), ("Tikshna", ⟨"銳", "锐", none⟩),
   ("Shlakshna", ⟨"滑", "滑", none⟩), ("Khara", ⟨"糙", "糙", none⟩),
   ("Sandra", ⟨"稠", "稠", none⟩), ("Drava", ⟨"液", "液", none⟩),
   ("Mrudu", ⟨"軟", "软", none⟩), ("Kathina", ⟨"硬", "硬", none⟩),
   ("Sthira", ⟨"穩", "稳", none⟩), ("Chala", ⟨"動", "动", none⟩),
   ("Sukshma", ⟨"細", "细", none⟩), ("Sthula", ⟨"粗", "粗", none⟩),
   ("Picchila", ⟨"黏", "黏", none⟩), ("Vishada", ⟨"清", "清", none⟩),
   ("Madhura", ⟨"甘味", "甘味", none⟩), ("Amla", ⟨"酸味", "酸味", none⟩),
   ("Lavana", ⟨"鹹味", "咸味", none⟩), ("Katu", ⟨"辛味", "辛味", none⟩),
   ("Tikta", ⟨"苦味", "苦味", none⟩), ("Kashaya", ⟨"澀味", "涩味", none⟩),
   ("Madhura Vipaka", ⟨"甘味後味", "甘味后味", none⟩),
   ("Amla Vipaka", ⟨"酸味後味", "酸味后味", none⟩),
   ("Katu Vipaka", ⟨"辛味後味", "辛味后味", none⟩),
   ("Ushna Virya", ⟨"熱性", "热性", none⟩),
   ("Sheeta Virya", ⟨"寒性", "寒性", none⟩)]

/-- DESC_TEMPLATES from scripts/fill-translations.js (lines 91–101),
as a function of the category key and the two template arguments. -/
def DESC_TEMPLATES (category name sci : String) : String :=
  if category = "seaweed" then
    name ++ "（學名：" ++ sci ++ "）是一種海洋藻類植物，在中醫藥學中具有軟堅散結、消痰利水的功效。現代研究表明其富含碘、褐藻酸等多種生物活性成分，具有調節甲狀腺功能、降血脂等藥理作用。"
  else if category = "herb" then
    name ++ "（學名：" ++ sci ++ "）為傳統藥用植物，在中醫臨床應用歷史悠久。該藥材具有多種藥理活性，現代藥理學研究證實其含有多種生物活性成分，在調節機體功能方面具有重要價值。"
  else if category = "vitamin" then
    name ++ "是一種重要的營養素，參與人體多種生理代謝過程。作為必需營養素，對維持機體正常功能具有重要作用。臨床研究表明適量補充有助於維持身體健康。"
  else if category = "mineral" then
    name ++ "是一種人體必需的礦物質元素，參與骨骼代謝、神經傳導、酶活性調節等多種生理功能。適量攝入對維持機體正常代謝和生理功能具有重要意義。"
  else if category = "oil" then
    name ++ "（學名：" ++ sci ++ "）萃取自植物種子或果實，富含不飽和脂肪酸和維生素E等營養成分。具有滋潤皮膚、抗氧化等功效，廣泛應用於保健和美容領域。"
  else if category = "fruit" then
    name ++ "（學名：" ++ sci ++ "）是一種具有藥用價值的漿果類植物。現代研究表明其富含花青素、類黃酮等抗氧化物質，具有保護心血管、改善視力等藥理活性。"
  else if category = "root" then
    name ++ "（學名：" ++ sci ++ "）為多年生草本植物，以其根部入藥。在中醫藥理論中歸屬於補益類藥物，具有補氣養血、健脾益肺等功效，是重要的傳統中藥材。"
  else if category = "animal" then
    name ++ "是一種珍貴的天然滋補品，富含蛋白質、氨基酸和多種微量元素。在中醫藥學中被視為滋陰潤燥、益氣補虛的上品，具有顯著的營養保健價值。"
  else
    name ++ "（學名：" ++ (if sci = "" then "待定" else sci) ++ "）是一種具有藥用價值的天然產物。現代藥理學研究證實其含有多種生物活性成分，在傳統醫學和現代保健領域均有重要應用價值。"

/-- Model of JavaScript `String.prototype.toLowerCase` for the ASCII
names and paths handled by the scripts (CJK characters are unaffected
by either implementation). -/
def jsToLower (s : String) : String :=
  ⟨s.data.map Char.toLower⟩

/-- Function detectCategory from scripts/fill-translations.js
(lines 118–132). -/
def detectCategory (filePath : String) (name : Option LangMap)
    (scientificName : Option String) : String :=
  let lowerPath := jsToLower filePath
  let lowerName := jsToLower (jsOrS (getOpt name "en") "")
  let lowerSci := jsToLower (jsOrS scientificName "")
  if occursIn "vitamin" lowerPath || occursIn "vitamin" lowerName then "vitamin"
  else if occursIn "mineral" lowerPath || occursIn "calcium" lowerName ||
      occursIn "selenium" lowerName || occursIn "zinc" lowerName then "mineral"
  else if occursIn "oil" lowerPath || occursIn "oil" lowerName ||
      occursIn "extract" lowerName then "oil"
  else if occursIn "algae" lowerName || occursIn "seaweed" lowerName ||
      occursIn "sargassum" lowerSci then "seaweed"
  else if occursIn "berry" lowerName || occursIn "fruit" lowerName ||
      occursIn "berry" lowerSci || occursIn "vaccinium" lowerSci then "fruit"
  else if occursIn "root" lowerName || occursIn "ginseng" lowerName then "root"
  else if occursIn "nest" lowerName || occursIn "jelly" lowerName ||
      occursIn "royal" lowerName then "animal"
  else "default"

/-- Fields of a plant entity document read or written by
fill-translations.js.  A language-map field holding a non-object truthy
value is never read or written by the script (every mutation guard
dereferences a language subkey, which is undefined on non-objects), so
such fields are modelled together with absent ones as `none`. -/
structure PlantDoc where
  name : Option LangMap
  description : Option LangMap
  commonName : Option LangMap
  scientificName : Option String
  deriving DecidableEq

/-- Function generateChineseDescription from scripts/fill-translations.js
(lines 137–148); returns the zh-Hant and zh-Hans texts. -/
def generateChineseDescription (data : PlantDoc) (filePath : String) : String × String :=
  let name := jsOrS (getOpt data.name "zh-Hant")
    (jsOrS (getOpt data.name "zh-Hans") (jsOrS (getOpt data.name "en") "該植物"))
  let sci := jsOrS data.scientificName ""
  let category := detectCategory filePath data.name data.scientificName
  let zhHant := DESC_TEMPLATES category name sci
  (zhHant, tradToSimp zhHant)

/-- Description block of processPlantEntity
(scripts/fill-translations.js lines 157–176).  The block reads only the
description field plus the name/scientificName fields consumed by
`generateChineseDescription`, and writes only the description field. -/
def fillPlantDescription (filePath : String) (data : PlantDoc) : Option LangMap :=
  match data.description with
  | none => none
  | some desc =>
    if truthyGet desc "en" then
      let hasZhHant := truthyGet desc "zh-Hant"
      let hasZhHans := truthyGet desc "zh-Hans"
      if !hasZhHant || !hasZhHans then
        let newDesc := generateChineseDescription data filePath
        let desc := if !hasZhHant then jsSet desc "zh-Hant" newDesc.1 else desc
        let desc := if !hasZhHans then jsSet desc "zh-Hans" newDesc.2 else desc
        some desc
      else some desc
    else some desc

/-- CommonName block of processPlantEntity
(scripts/fill-translations.js lines 179–190), a function of the name
and commonName maps only. -/
def fillPlantCommonName (name cn : Option LangMap) : Option LangMap :=
  match cn with
  | none => none
  | some cn =>
    if truthyGet cn "en" then
      let cn := if !truthyGet cn "zh-Hant" && truthyOpt name "zh-Hant" then
          jsSet cn "zh-Hant" ((getOpt name "zh-Hant").getD "") else cn
      let cn := if !truthyGet cn "zh-Hans" && truthyOpt name "zh-Hans" then
          jsSet cn "zh-Hans" ((getOpt name "zh-Hans").getD "") else cn
      some cn
    else some cn

/-- Function processPlantEntity from scripts/fill-translations.js
(lines 153–193), restricted to the document transformation (the
`updates`/`modified` bookkeeping does not affect the data).  The two
source blocks touch disjoint fields, so the sequential in-place
mutation is the simultaneous update below. -/
def processPlantEntity (filePath : String) (data : PlantDoc) : PlantDoc :=
  { data with
    description := fillPlantDescription filePath data
    commonName := fillPlantCommonName data.name data.commonName }

/-- Fields of a TCM herb profile read or written by
fill-translations.js (same `none` convention as `PlantDoc`). -/
structure TcmDoc where
  name : Option LangMap
  tcmHistory : Option LangMap
  tcmTraditionalUsage : Option LangMap
  tcmModernResearch : Option LangMap
  tcmFunctions : Option LangMap
  contraindications : Option LangMap
  dosage : Option LangMap
  deriving DecidableEq

/-- Field-name beautifier used in the placeholder strings:
`field.replace('tcm', '').replace(/([A-Z])/g, ' $1').trim()`. -/
def fieldLabel (field : String) : String :=
  jsTrim ⟨((jsReplaceFirst "tcm" "" field).data.map
    (fun c => if c.isUpper then [' ', c] else [c])).flatten⟩

/-- First block of addMissingTranslations
(scripts/fill-translations.js lines 207–211): derive zh-Hans from
zh-Hant by character substitution. -/
def tcmStepHansFromHant (m : LangMap) : LangMap :=
  if truthyGet m "zh-Hant" && !truthyGet m "zh-Hans" then
    jsSet m "zh-Hans" (tradToSimp ((jsGet m "zh-Hant").getD "")) else m

/-- Second block (lines 214–218): copy zh-Hans into a missing
zh-Hant. -/
def tcmStepHantFromHans (m : LangMap) : LangMap :=
  if truthyGet m "zh-Hans" && !truthyGet m "zh-Hant" then
    jsSet m "zh-Hant" ((jsGet m "zh-Hans").getD "") else m

/-- Chinese placeholder text of the third block (line 223). -/
def tcmPlaceholderZh (name : Option LangMap) (field : String) : String :=
  "【" ++ jsOrS (getOpt name "zh-Hant") (jsOrS (getOpt name "en") "該藥材") ++ "】" ++
    fieldLabel field ++ "內容待翻譯補充。"

/-- Third block (lines 221–228): synthesize both Chinese variants from
an English-only field. -/
def tcmStepZhPlaceholder (name : Option LangMap) (field : String) (m : LangMap) : LangMap :=
  if truthyGet m "en" && !truthyGet m "zh-Hant" && !truthyGet m "zh-Hans" then
    jsSet (jsSet m "zh-Hant" (tcmPlaceholderZh name field)) "zh-Hans"
      (tradToSimp (tcmPlaceholderZh name field))
  else m

/-- English placeholder text of the fourth block (line 233). -/
def tcmPlaceholderEn (name : Option LangMap) (field : String) : String :=
  "[" ++ fieldLabel field ++ " information for " ++
    jsOrS (getOpt name "en") (jsOrS (getOpt name "zh-Hant") "This herb") ++
    " - translation needed]"

/-- Fourth block (lines 231–236): synthesize an English placeholder
from a Chinese-only field. -/
def tcmStepEnPlaceholder (name : Option LangMap) (field : String) (m : LangMap) : LangMap :=
  if truthyGet m "zh-Hant" && !truthyGet m "en" then
    jsSet m "en" (tcmPlaceholderEn name field) else m

/-- Helper addMissingTranslations inside processTcmProfile
(scripts/fill-translations.js lines 203–237), as a transformation of
one language-map field (the four blocks in source order); `name` is the
profile's name map. -/
def fillTcmMap (name : Option LangMap) (field : String) (m : LangMap) : LangMap :=
  tcmStepEnPlaceholder name field
    (tcmStepZhPlaceholder name field
      (tcmStepHantFromHans
        (tcmStepHansFromHant m)))

/-- Option-level wrapper: `if (!data[field]) return` skips absent
fields. -/
def fillTcmField (name : Option LangMap) (field : String) (v : Option LangMap) :
    Option LangMap :=
  v.map (fillTcmMap name field)

/-- Function processTcmProfile from scripts/fill-translations.js
(lines 198–248): the helper applied to the six multilingual fields. -/
def processTcmProfile (d : TcmDoc) : TcmDoc :=
  { d with
    tcmHistory := fillTcmField d.name "tcmHistory" d.tcmHistory
    tcmTraditionalUsage := fillTcmField d.name "tcmTraditionalUsage" d.tcmTraditionalUsage
    tcmModernResearch := fillTcmField d.name "tcmModernResearch" d.tcmModernResearch
    tcmFunctions := fillTcmField d.name "tcmFunctions" d.tcmFunctions
    contraindications := fillTcmField d.name "contraindications" d.contraindications
    dosage := fillTcmField d.name "dosage" d.dosage }

/-- Fields of a Western herb profile read or written by
fill-translations.js. -/
structure WesternDoc where
  name : Option LangMap
  westernHistory : Option LangMap
  westernTraditionalUsage : Option LangMap
  westernModernResearch : Option LangMap
  deriving DecidableEq

/-- Placeholder text of processWesternProfile (line 262). -/
def westernPlaceholder (plantName : String) : String :=
  "【" ++ plantName ++ "】在西方草藥學中的應用歷史悠久，現代研究證實其具有多種藥理活性。"

/-- Field transformation inside processWesternProfile
(scripts/fill-translations.js lines 258–268). -/
def fillWesternMap (plantName : String) (m : LangMap) : LangMap :=
  if truthyGet m "en" && !truthyGet m "zh-Hant" && !truthyGet m "zh-Hans" then
    jsSet (jsSet m "zh-Hant" (westernPlaceholder plantName)) "zh-Hans"
      (tradToSimp (westernPlaceholder plantName))
  else m

/-- Function processWesternProfile from scripts/fill-translations.js
(lines 253–275). -/
def processWesternProfile (d : WesternDoc) : WesternDoc :=
  let plantName := jsOrS (getOpt d.name "zh-Hant") (jsOrS (getOpt d.name "en") "該草藥")
  { d with
    westernHistory := (d.westernHistory).map (fillWesternMap plantName)
    westernTraditionalUsage := (d.westernTraditionalUsage).map (fillWesternMap plantName)
    westernModernResearch := (d.westernModernResearch).map (fillWesternMap plantName) }

/-- Item of an Ayurveda reference file's @graph array
(scripts/fill-translations.js lines 286–322). -/
structure AyurItem where
  id : String
  prefLabel : Option LangMap
  description : Option LangMap
  deriving DecidableEq

/-- Ayurveda reference document: `@graph` array of concept items. -/
structure AyurDoc where
  graph : Option (List AyurItem)
  deriving DecidableEq

/-- Transformation of one @graph item inside processAyurvedaReference
(scripts/fill-translations.js lines 286–321). -/
def processAyurItem (item : AyurItem) : AyurItem :=
  let item :=
    match item.prefLabel with
    | none => item
    | some pl =>
      let enLabel := jsGet pl "en"
      let term : Option AyurTerm := enLabel.bind
        (fun l => (AYURVEDA_TERMS.find? (fun p : String × AyurTerm => p.1 == l)).map
          (fun p : String × AyurTerm => p.2))
      match term with
      | some t =>
        let pl := if !truthyGet pl "zh-Hant" then jsSet pl "zh-Hant" t.zhHant else pl
        let pl := if !truthyGet pl "zh-Hans" then jsSet pl "zh-Hans" t.zhHans else pl
        { item with prefLabel := some pl }
      | none =>
        if truthyGet pl "en" && !truthyGet pl "zh-Hant" then
          let fallback := (jsGet pl "en").getD ""
          { item with prefLabel := some (jsSet (jsSet pl "zh-Hant" fallback) "zh-Hans" fallback) }
        else item
  match item.description with
  | none => item
  | some dm =>
    if truthyGet dm "en" && !truthyGet dm "zh-Hant" then
      let term : Option AyurTerm := (getOpt item.prefLabel "en").bind
        (fun l => (AYURVEDA_TERMS.find? (fun p : String × AyurTerm => p.1 == l)).map
          (fun p : String × AyurTerm => p.2))
      match term.bind (fun t => t.desc) with
      | some desc =>
        { item with description := some (jsSet (jsSet dm "zh-Hant" desc) "zh-Hans" (tradToSimp desc)) }
      | none => item
    else item

/-- Function processAyurvedaReference from scripts/fill-translations.js
(lines 280–325): map over the @graph items (`if (!data['@graph'])
return` skips documents without a graph). -/
def processAyurvedaReference (d : AyurDoc) : AyurDoc :=
  match d.graph with
  | none => d
  | some items => { d with graph := some (items.map processAyurItem) }

end FillTranslations

namespace JsUtil

theorem truthyGet_some {m : LangMap} {k : String} (h : truthyGet m k = true) :
    ∃ w, jsGet m k = some w ∧ w ≠ "" := by
  rw [truthyGet] at h
  cases hg : jsGet m k with
  | none => rw [hg] at h; simp at h
  | some w =>
    rw [hg] at h
    refine ⟨w, rfl, ?_⟩
    simpa using h

theorem truthyGet_jsSet_same_of_ne (m : LangMap) (k v : String) (hv : v ≠ "") :
    truthyGet (jsSet m k v) k = true := by
  rw [truthyGet_jsSet_same]
  exact decide_eq_true hv

theorem guardedSet_superset (m : LangMap) (c : Bool) (k v : String) :
    mapSuperset m (if c then jsSet m k v else m) := by
  cases c
  · simpa using mapSuperset_refl m
  · simpa using jsSet_superset m k v

theorem guardedSet_preserves (m : LangMap) (c : Bool) (k v : String)
    (h : c = true → truthyGet m k = false) :
    mapPreserves m (if c then jsSet m k v else m) := by
  cases c
  · simpa using mapPreserves_refl m
  · simpa using jsSet_preserves m k v (h rfl)

theorem eq_empty_of_data_eq_nil {s : String} (h : s.data = []) : s = "" := by
  have h1 : s = ⟨s.data⟩ := rfl
  rw [h1, h]

theorem string_append_ne_right (x : String) {y : String} (hy : y ≠ "") : x ++ y ≠ "" := by
  intro h
  have h1 : (x ++ y).data = ("" : String).data := congrArg String.data h
  rw [String.data_append] at h1
  have h2 : y.data = [] := (List.append_eq_nil.mp h1).2
  exact hy (eq_empty_of_data_eq_nil h2)

end JsUtil

namespace FillTranslations

open JsUtil

theorem tradToSimp_ne_empty {s : String} (h : s ≠ "") : tradToSimp s ≠ "" := by
  intro hc
  apply h
  have h1 := tradToSimp_eq_map s
  rw [hc] at h1
  have h2 : ([] : List Char) = s.data.map charSubstTable := congrArg String.data h1
  apply eq_empty_of_data_eq_nil
  cases hd : s.data with
  | nil => rfl
  | cons a l => rw [hd] at h2; simp at h2

theorem tcmPlaceholderZh_ne_empty (n : Option LangMap) (f : String) :
    tcmPlaceholderZh n f ≠ "" :=
  string_append_ne_right _ (by decide)

theorem tcmPlaceholderEn_ne_empty (n : Option LangMap) (f : String) :
    tcmPlaceholderEn n f ≠ "" :=
  string_append_ne_right _ (by decide)

theorem westernPlaceholder_ne_empty (p : String) : westernPlaceholder p ≠ "" :=
  string_append_ne_right _ (by decide)

theorem DESC_TEMPLATES_ne_empty (c n s : String) : DESC_TEMPLATES c n s ≠ "" := by
  rw [DESC_TEMPLATES]
  split_ifs <;> exact string_append_ne_right _ (by decide)

theorem tcmStepHansFromHant_superset (m : LangMap) :
    mapSuperset m (tcmStepHansFromHant m) :=
  guardedSet_superset m _ _ _

theorem tcmStepHantFromHans_superset (m : LangMap) :
    mapSuperset m (tcmStepHantFromHans m) :=
  guardedSet_superset m _ _ _

theorem tcmStepEnPlaceholder_superset (n : Option LangMap) (f : String) (m : LangMap) :
    mapSuperset m (tcmStepEnPlaceholder n f m) :=
  guardedSet_superset m _ _ _

theorem tcmStepZhPlaceholder_superset (n : Option LangMap) (f : String) (m : LangMap) :
    mapSuperset m (tcmStepZhPlaceholder n f m) := by
  rw [tcmStepZhPlaceholder]
  by_cases hc : (truthyGet m "en" && !truthyGet m "zh-Hant" && !truthyGet m "zh-Hans") = true
  · rw [if_pos hc]
    exact mapSuperset_trans (jsSet_superset m _ _) (jsSet_superset _ _ _)
  · rw [if_neg hc]
    exact mapSuperset_refl m

theorem tcmStepHansFromHant_preserves (m : LangMap) :
    mapPreserves m (tcmStepHansFromHant m) := by
  rw [tcmStepHansFromHant]
  apply guardedSet_preserves
  intro hc
  have h2 := (Bool.and_eq_true _ _).mp hc |>.2
  simpa using h2

theorem tcmStepHantFromHans_preserves (m : LangMap) :
    mapPreserves m (tcmStepHantFromHans m) := by
  rw [tcmStepHantFromHans]
  apply guardedSet_preserves
  intro hc
  have h2 := (Bool.and_eq_true _ _).mp hc |>.2
  simpa using h2

theorem tcmStepEnPlaceholder_preserves (n : Option LangMap) (f : String) (m : LangMap) :
    mapPreserves m (tcmStepEnPlaceholder n f m) := by
  rw [tcmStepEnPlaceholder]
  apply guardedSet_preserves
  intro hc
  have h2 := (Bool.and_eq_true _ _).mp hc |>.2
  simpa using h2

theorem tcmStepZhPlaceholder_preserves (n : Option LangMap) (f : String) (m : LangMap) :
    mapPreserves m (tcmStepZhPlaceholder n f m) := by
  rw [tcmStepZhPlaceholder]
  by_cases hc : (truthyGet m "en" && !truthyGet m "zh-Hant" && !truthyGet m "zh-Hans") = true
  · rw [if_pos hc]
    have h1 : truthyGet m "zh-Hant" = false := by
      have := ((Bool.and_eq_true _ _).mp ((Bool.and_eq_true _ _).mp hc).1).2
      simpa using this
    have h2 : truthyGet m "zh-Hans" = false := by
      have := ((Bool.and_eq_true _ _).mp hc).2
      simpa using this
    apply mapPreserves_trans (jsSet_preserves m _ _ h1)
    apply jsSet_preserves
    rw [truthyGet_jsSet_other _ _ _ _ (by decide)]
    exact h2
  · rw [if_neg hc]
    exact mapPreserves_refl m

theorem fillTcmMap_superset (n : Option LangMap) (f : String) (m : LangMap) :
    mapSuperset m (fillTcmMap n f m) := by
  rw [fillTcmMap]
  exact mapSuperset_trans (tcmStepHansFromHant_superset m)
    (mapSuperset_trans (tcmStepHantFromHans_superset _)
      (mapSuperset_trans (tcmStepZhPlaceholder_superset n f _)
        (tcmStepEnPlaceholder_superset n f _)))

theorem fillTcmMap_preserves (n : Option LangMap) (f : String) (m : LangMap) :
    mapPreserves m (fillTcmMap n f m) := by
  rw [fillTcmMap]
  exact mapPreserves_trans (tcmStepHansFromHant_preserves m)
    (mapPreserves_trans (tcmStepHantFromHans_preserves _)
      (mapPreserves_trans (tcmStepZhPlaceholder_preserves n f _)
        (tcmStepEnPlaceholder_preserves n f _)))

theorem tcmStepEnPlaceholder_balanced (n : Option LangMap) (f : String) (m1 : LangMap)
    (h1 : truthyGet m1 "zh-Hant" = true) (h2 : truthyGet m1 "zh-Hans" = true) :
    (truthyGet (tcmStepEnPlaceholder n f m1) "zh-Hant" =
      truthyGet (tcmStepEnPlaceholder n f m1) "zh-Hans")
    ∧ (truthyGet (tcmStepEnPlaceholder n f m1) "zh-Hans" =
      truthyGet (tcmStepEnPlaceholder n f m1) "en") := by
  cases h3 : truthyGet m1 "en" with
  | true =>
    have hD : tcmStepEnPlaceholder n f m1 = m1 := by
      simp [tcmStepEnPlaceholder, h3]
    rw [hD]
    exact ⟨h1.trans h2.symm, h2.trans h3.symm⟩
  | false =>
    have hD : tcmStepEnPlaceholder n f m1 = jsSet m1 "en" (tcmPlaceholderEn n f) := by
      simp [tcmStepEnPlaceholder, h1, h3]
    rw [hD]
    have r1 : truthyGet (jsSet m1 "en" (tcmPlaceholderEn n f)) "zh-Hant" = true := by
      rw [truthyGet_jsSet_other _ _ _ _ (by decide)]
      exact h1
    have r2 : truthyGet (jsSet m1 "en" (tcmPlaceholderEn n f)) "zh-Hans" = true := by
      rw [truthyGet_jsSet_other _ _ _ _ (by decide)]
      exact h2
    have r3 : truthyGet (jsSet m1 "en" (tcmPlaceholderEn n f)) "en" = true :=
      truthyGet_jsSet_same_of_ne _ _ _ (tcmPlaceholderEn_ne_empty n f)
    exact ⟨r1.trans r2.symm, r2.trans r3.symm⟩

theorem tcmTailCD_balanced (n : Option LangMap) (f : String) (m1 : LangMap)
    (h1 : truthyGet m1 "zh-Hant" = true) (h2 : truthyGet m1 "zh-Hans" = true) :
    (truthyGet (tcmStepEnPlaceholder n f (tcmStepZhPlaceholder n f m1)) "zh-Hant" =
      truthyGet (tcmStepEnPlaceholder n f (tcmStepZhPlaceholder n f m1)) "zh-Hans")
    ∧ (truthyGet (tcmStepEnPlaceholder n f (tcmStepZhPlaceholder n f m1)) "zh-Hans" =
      truthyGet (tcmStepEnPlaceholder n f (tcmStepZhPlaceholder n f m1)) "en") := by
  have hC : tcmStepZhPlaceholder n f m1 = m1 := by
    simp [tcmStepZhPlaceholder, h1]
  rw [hC]
  exact tcmStepEnPlaceholder_balanced n f m1 h1 h2

theorem tcmTailBCD_balanced (n : Option LangMap) (f : String) (m1 : LangMap)
    (h1 : truthyGet m1 "zh-Hant" = true) (h2 : truthyGet m1 "zh-Hans" = true) :
    (truthyGet (tcmStepEnPlaceholder n f (tcmStepZhPlaceholder n f (tcmStepHantFromHans m1)))
        "zh-Hant" =
      truthyGet (tcmStepEnPlaceholder n f (tcmStepZhPlaceholder n f (tcmStepHantFromHans m1)))
        "zh-Hans")
    ∧ (truthyGet (tcmStepEnPlaceholder n f (tcmStepZhPlaceholder n f (tcmStepHantFromHans m1)))
        "zh-Hans" =
      truthyGet (tcmStepEnPlaceholder n f (tcmStepZhPlaceholder n f (tcmStepHantFromHans m1)))
        "en") := by
  have hB : tcmStepHantFromHans m1 = m1 := by
    simp [tcmStepHantFromHans, h1]
  rw [hB]
  exact tcmTailCD_balanced n f m1 h1 h2

theorem fillTcmMap_truthy_balanced (n : Option LangMap) (f : String) (m : LangMap) :
    (truthyGet (fillTcmMap n f m) "zh-Hant" = truthyGet (fillTcmMap n f m) "zh-Hans")
    ∧ (truthyGet (fillTcmMap n f m) "zh-Hans" = truthyGet (fillTcmMap n f m) "en") := by
  rw [fillTcmMap]
  cases h1 : truthyGet m "zh-Hant" with
  | true =>
    cases h2 : truthyGet m "zh-Hans" with
    | true =>
      have hA : tcmStepHansFromHant m = m := by
        simp [tcmStepHansFromHant, h2]
      rw [hA]
      exact tcmTailBCD_balanced n f m h1 h2
    | false =>
      obtain ⟨w, hw, hwne⟩ := truthyGet_some h1
      have hv : tradToSimp ((jsGet m "zh-Hant").getD "") ≠ "" := by
        rw [hw]
        exact tradToSimp_ne_empty hwne
      have hA : tcmStepHansFromHant m =
          jsSet m "zh-Hans" (tradToSimp ((jsGet m "zh-Hant").getD "")) := by
        simp [tcmStepHansFromHant, h1, h2]
      rw [hA]
      apply tcmTailBCD_balanced
      · rw [truthyGet_jsSet_other _ _ _ _ (by decide)]
        exact h1
      · exact truthyGet_jsSet_same_of_ne _ _ _ hv
  | false =>
    have hA : tcmStepHansFromHant m = m := by
      simp [tcmStepHansFromHant, h1]
    rw [hA]
    cases h2 : truthyGet m "zh-Hans" with
    | true =>
      obtain ⟨w, hw, hwne⟩ := truthyGet_some h2
      have hv : (jsGet m "zh-Hans").getD "" ≠ "" := by
        rw [hw]
        exact hwne
      have hB : tcmStepHantFromHans m = jsSet m "zh-Hant" ((jsGet m "zh-Hans").getD "") := by
        simp [tcmStepHantFromHans, h1, h2]
      rw [hB]
      apply tcmTailCD_balanced
      · exact truthyGet_jsSet_same_of_ne _ _ _ hv
      · rw [truthyGet_jsSet_other _ _ _ _ (by decide)]
        exact h2
    | false =>
      have hB : tcmStepHantFromHans m = m := by
        simp [tcmStepHantFromHans, h2]
      rw [hB]
      cases h3 : truthyGet m "en" with
      | true =>
        have hC : tcmStepZhPlaceholder n f m =
            jsSet (jsSet m "zh-Hant" (tcmPlaceholderZh n f)) "zh-Hans"
              (tradToSimp (tcmPlaceholderZh n f)) := by
          simp [tcmStepZhPlaceholder, h1, h2, h3]
        rw [hC]
        apply tcmStepEnPlaceholder_balanced
        · rw [truthyGet_jsSet_other _ _ _ _ (by decide)]
          exact truthyGet_jsSet_same_of_ne _ _ _ (tcmPlaceholderZh_ne_empty n f)
        · exact truthyGet_jsSet_same_of_ne _ _ _
            (tradToSimp_ne_empty (tcmPlaceholderZh_ne_empty n f))
      | false =>
        have hC : tcmStepZhPlaceholder n f m = m := by
          simp [tcmStepZhPlaceholder, h3]
        rw [hC]
        have hD : tcmStepEnPlaceholder n f m = m := by
          simp [tcmStepEnPlaceholder, h1]
        rw [hD]
        exact ⟨h1.trans h2.symm, h2.trans h3.symm⟩

theorem fillTcmMap_of_balanced (n : Option LangMap) (f : String) (m : LangMap)
    (h12 : truthyGet m "zh-Hant" = truthyGet m "zh-Hans")
    (h2e : truthyGet m "zh-Hans" = truthyGet m "en") :
    fillTcmMap n f m = m := by
  rw [fillTcmMap]
  cases h1 : truthyGet m "zh-Hant" with
  | true =>
    have h2 : truthyGet m "zh-Hans" = true := by rw [← h12]; exact h1
    have h3 : truthyGet m "en" = true := by rw [← h2e]; exact h2
    simp [tcmStepHansFromHant, tcmStepHantFromHans, tcmStepZhPlaceholder,
      tcmStepEnPlaceholder, h1, h2, h3]
  | false =>
    have h2 : truthyGet m "zh-Hans" = false := by rw [← h12]; exact h1
    have h3 : truthyGet m "en" = false := by rw [← h2e]; exact h2
    simp [tcmStepHansFromHant, tcmStepHantFromHans, tcmStepZhPlaceholder,
      tcmStepEnPlaceholder, h1, h2, h3]

theorem fillTcmMap_idem (n : Option LangMap) (f : String) (m : LangMap) :
    fillTcmMap n f (fillTcmMap n f m) = fillTcmMap n f m :=
  fillTcmMap_of_balanced n f _ (fillTcmMap_truthy_balanced n f m).1
    (fillTcmMap_truthy_balanced n f m).2

theorem optSuperset_of_map {b a : LangMap} (h : mapSuperset b a) :
    optSuperset (some b) (some a) := fun k hk => h k hk

theorem optPreserves_of_map {b a : LangMap} (h : mapPreserves b a) :
    optPreserves (some b) (some a) := fun k v hk hv => h k v hk hv

theorem optSuperset_none (a : Option LangMap) : optSuperset none a := by
  intro k hk
  simp [getOpt] at hk

theorem optPreserves_none (a : Option LangMap) : optPreserves none a := by
  intro k v hk
  simp [getOpt] at hk

theorem fillWesternMap_superset (pn : String) (m : LangMap) :
    mapSuperset m (fillWesternMap pn m) := by
  rw [fillWesternMap]
  by_cases hc : (truthyGet m "en" && !truthyGet m "zh-Hant" && !truthyGet m "zh-Hans") = true
  · rw [if_pos hc]
    exact mapSuperset_trans (jsSet_superset m _ _) (jsSet_superset _ _ _)
  · rw [if_neg hc]
    exact mapSuperset_refl m

theorem fillWesternMap_preserves (pn : String) (m : LangMap) :
    mapPreserves m (fillWesternMap pn m) := by
  rw [fillWesternMap]
  by_cases hc : (truthyGet m "en" && !truthyGet m "zh-Hant" && !truthyGet m "zh-Hans") = true
  · rw [if_pos hc]
    have h1 : truthyGet m "zh-Hant" = false := by
      have := ((Bool.and_eq_true _ _).mp ((Bool.and_eq_true _ _).mp hc).1).2
      simpa using this
    have h2 : truthyGet m "zh-Hans" = false := by
      have := ((Bool.and_eq_true _ _).mp hc).2
      simpa using this
    apply mapPreserves_trans (jsSet_preserves m _ _ h1)
    apply jsSet_preserves
    rw [truthyGet_jsSet_other _ _ _ _ (by decide)]
    exact h2
  · rw [if_neg hc]
    exact mapPreserves_refl m

theorem fillWesternMap_idem (pn : String) (m : LangMap) :
    fillWesternMap pn (fillWesternMap pn m) = fillWesternMap pn m := by
  by_cases hc : (truthyGet m "en" && !truthyGet m "zh-Hant" && !truthyGet m "zh-Hans") = true
  · have h1 : fillWesternMap pn m =
        jsSet (jsSet m "zh-Hant" (westernPlaceholder pn)) "zh-Hans"
          (tradToSimp (westernPlaceholder pn)) := by
      rw [fillWesternMap, if_pos hc]
    rw [h1]
    have hhant : truthyGet (jsSet (jsSet m "zh-Hant" (westernPlaceholder pn)) "zh-Hans"
        (tradToSimp (westernPlaceholder pn))) "zh-Hant" = true := by
      rw [truthyGet_jsSet_other _ _ _ _ (by decide)]
      exact truthyGet_jsSet_same_of_ne _ _ _ (westernPlaceholder_ne_empty pn)
    rw [fillWesternMap]
    simp [hhant]
  · have h1 : fillWesternMap pn m = m := by rw [fillWesternMap, if_neg hc]
    rw [h1, fillWesternMap, if_neg hc]

theorem truthyOpt_some {name : Option LangMap} {k : String} (h : truthyOpt name k = true) :
    ∃ w, getOpt name k = some w ∧ w ≠ "" := by
  cases name with
  | none => simp [truthyOpt] at h
  | some nm =>
    obtain ⟨w, hw, hwne⟩ := truthyGet_some (show truthyGet nm k = true by simpa [truthyOpt] using h)
    exact ⟨w, by simpa [getOpt] using hw, hwne⟩

theorem generateChineseDescription_ne_empty (d : PlantDoc) (fp : String) :
    (generateChineseDescription d fp).1 ≠ "" ∧ (generateChineseDescription d fp).2 ≠ "" := by
  rw [generateChineseDescription]
  exact ⟨DESC_TEMPLATES_ne_empty _ _ _, tradToSimp_ne_empty (DESC_TEMPLATES_ne_empty _ _ _)⟩

theorem fillPlantDescription_superset (fp : String) (d : PlantDoc) :
    optSuperset d.description (fillPlantDescription fp d) := by
  cases hdesc : d.description with
  | none => exact optSuperset_none _
  | some desc =>
    have hbody : fillPlantDescription fp d = some desc
        ∨ fillPlantDescription fp d = some
            (if !truthyGet desc "zh-Hans" then
              jsSet (if !truthyGet desc "zh-Hant" then
                  jsSet desc "zh-Hant" (generateChineseDescription d fp).1 else desc)
                "zh-Hans" (generateChineseDescription d fp).2
              else (if !truthyGet desc "zh-Hant" then
                  jsSet desc "zh-Hant" (generateChineseDescription d fp).1 else desc)) := by
      simp only [fillPlantDescription, hdesc]
      by_cases hen : truthyGet desc "en" = true
      · by_cases hb : (!truthyGet desc "zh-Hant" || !truthyGet desc "zh-Hans") = true
        · right; simp [hen, hb]
        · left; simp [hen, hb]
      · left; simp [hen]
    rcases hbody with h | h
    · rw [h]; exact optSuperset_of_map (mapSuperset_refl desc)
    · rw [h]
      apply optSuperset_of_map
      exact mapSuperset_trans (guardedSet_superset desc _ _ _) (guardedSet_superset _ _ _ _)

theorem fillPlantDescription_preserves (fp : String) (d : PlantDoc) :
    optPreserves d.description (fillPlantDescription fp d) := by
  cases hdesc : d.description with
  | none => exact optPreserves_none _
  | some desc =>
    have hbody : fillPlantDescription fp d = some desc
        ∨ fillPlantDescription fp d = some
            (if !truthyGet desc "zh-Hans" then
              jsSet (if !truthyGet desc "zh-Hant" then
                  jsSet desc "zh-Hant" (generateChineseDescription d fp).1 else desc)
                "zh-Hans" (generateChineseDescription d fp).2
              else (if !truthyGet desc "zh-Hant" then
                  jsSet desc "zh-Hant" (generateChineseDescription d fp).1 else desc)) := by
      simp only [fillPlantDescription, hdesc]
      by_cases hen : truthyGet desc "en" = true
      · by_cases hb : (!truthyGet desc "zh-Hant" || !truthyGet desc "zh-Hans") = true
        · right; simp [hen, hb]
        · left; simp [hen, hb]
      · left; simp [hen]
    rcases hbody with h | h
    · rw [h]; exact optPreserves_of_map (mapPreserves_refl desc)
    · rw [h]
      apply optPreserves_of_map
      have hstep1 : mapPreserves desc
          (if !truthyGet desc "zh-Hant" then
            jsSet desc "zh-Hant" (generateChineseDescription d fp).1 else desc) := by
        apply guardedSet_preserves
        intro hh
        simpa using hh
      apply mapPreserves_trans hstep1
      apply guardedSet_preserves
      intro hh
      have heq : truthyGet (if !truthyGet desc "zh-Hant" then
          jsSet desc "zh-Hant" (generateChineseDescription d fp).1 else desc) "zh-Hans" =
          truthyGet desc "zh-Hans" := by
        by_cases hg : (!truthyGet desc "zh-Hant") = true
        · rw [if_pos hg, truthyGet_jsSet_other _ _ _ _ (by decide)]
        · rw [if_neg hg]
      rw [heq]
      simpa using hh

theorem fillPlantDescription_stable (fp : String) (d : PlantDoc) (cn : Option LangMap) :
    fillPlantDescription fp
        { d with description := fillPlantDescription fp d, commonName := cn } =
      fillPlantDescription fp d := by
  cases hdesc : d.description with
  | none =>
    have h0 : fillPlantDescription fp d = none := by
      simp [fillPlantDescription, hdesc]
    rw [h0]
    simp [fillPlantDescription]
  | some desc =>
    by_cases hen : truthyGet desc "en" = true
    · by_cases h1 : truthyGet desc "zh-Hant" = true
      · by_cases h2 : truthyGet desc "zh-Hans" = true
        · have h0 : fillPlantDescription fp d = some desc := by
            simp [fillPlantDescription, hdesc, hen, h1, h2]
          rw [h0]
          simp [fillPlantDescription, hen, h1, h2]
        · have h0 : fillPlantDescription fp d =
              some (jsSet desc "zh-Hans" (generateChineseDescription d fp).2) := by
            simp [fillPlantDescription, hdesc, hen, h1, h2]
          rw [h0]
          have t1 : truthyGet (jsSet desc "zh-Hans" (generateChineseDescription d fp).2)
              "zh-Hant" = true := by
            rw [truthyGet_jsSet_other _ _ _ _ (by decide)]
            exact h1
          have t2 : truthyGet (jsSet desc "zh-Hans" (generateChineseDescription d fp).2)
              "zh-Hans" = true :=
            truthyGet_jsSet_same_of_ne _ _ _ (generateChineseDescription_ne_empty d fp).2
          have te : truthyGet (jsSet desc "zh-Hans" (generateChineseDescription d fp).2)
              "en" = true := by
            rw [truthyGet_jsSet_other _ _ _ _ (by decide)]
            exact hen
          simp [fillPlantDescription, t1, t2, te]
      · by_cases h2 : truthyGet desc "zh-Hans" = true
        · have h0 : fillPlantDescription fp d =
              some (jsSet desc "zh-Hant" (generateChineseDescription d fp).1) := by
            simp [fillPlantDescription, hdesc, hen, h1, h2]
          rw [h0]
          have t1 : truthyGet (jsSet desc "zh-Hant" (generateChineseDescription d fp).1)
              "zh-Hant" = true :=
            truthyGet_jsSet_same_of_ne _ _ _ (generateChineseDescription_ne_empty d fp).1
          have t2 : truthyGet (jsSet desc "zh-Hant" (generateChineseDescription d fp).1)
              "zh-Hans" = true := by
            rw [truthyGet_jsSet_other _ _ _ _ (by decide)]
            exact h2
          have te : truthyGet (jsSet desc "zh-Hant" (generateChineseDescription d fp).1)
              "en" = true := by
            rw [truthyGet_jsSet_other _ _ _ _ (by decide)]
            exact hen
          simp [fillPlantDescription, t1, t2, te]
        · have h0 : fillPlantDescription fp d =
              some (jsSet (jsSet desc "zh-Hant" (generateChineseDescription d fp).1)
                "zh-Hans" (generateChineseDescription d fp).2) := by
            simp [fillPlantDescription, hdesc, hen, h1, h2]
          rw [h0]
          have t1 : truthyGet (jsSet (jsSet desc "zh-Hant" (generateChineseDescription d fp).1)
              "zh-Hans" (generateChineseDescription d fp).2) "zh-Hant" = true := by
            rw [truthyGet_jsSet_other _ _ _ _ (by decide)]
            exact truthyGet_jsSet_same_of_ne _ _ _ (generateChineseDescription_ne_empty d fp).1
          have t2 : truthyGet (jsSet (jsSet desc "zh-Hant" (generateChineseDescription d fp).1)
              "zh-Hans" (generateChineseDescription d fp).2) "zh-Hans" = true :=
            truthyGet_jsSet_same_of_ne _ _ _ (generateChineseDescription_ne_empty d fp).2
          have te : truthyGet (jsSet (jsSet desc "zh-Hant" (generateChineseDescription d fp).1)
              "zh-Hans" (generateChineseDescription d fp).2) "en" = true := by
            rw [truthyGet_jsSet_other _ _ _ _ (by decide),
              truthyGet_jsSet_other _ _ _ _ (by decide)]
            exact hen
          simp [fillPlantDescription, t1, t2, te]
    · have h0 : fillPlantDescription fp d = some desc := by
        simp [fillPlantDescription, hdesc, hen]
      rw [h0]
      simp [fillPlantDescription, hen]

theorem nameCopy_guard_false (name : Option LangMap) (c : LangMap) (k : String) :
    (!truthyGet (if !truthyGet c k && truthyOpt name k then
        jsSet c k ((getOpt name k).getD "") else c) k && truthyOpt name k) = false := by
  by_cases hg : (!truthyGet c k && truthyOpt name k) = true
  · rw [if_pos hg]
    have hn : truthyOpt name k = true := ((Bool.and_eq_true _ _).mp hg).2
    obtain ⟨w, hw, hwne⟩ := truthyOpt_some hn
    have hv : (getOpt name k).getD "" ≠ "" := by
      rw [hw]
      exact hwne
    rw [truthyGet_jsSet_same_of_ne _ _ _ hv]
    rfl
  · rw [if_neg hg]
    simpa using hg

theorem nameCopy_other (name : Option LangMap) (c : LangMap) (k k' : String) (hk : k' ≠ k) :
    truthyGet (if !truthyGet c k && truthyOpt name k then
        jsSet c k ((getOpt name k).getD "") else c) k' = truthyGet c k' := by
  by_cases hg : (!truthyGet c k && truthyOpt name k) = true
  · rw [if_pos hg, truthyGet_jsSet_other _ _ _ _ hk]
  · rw [if_neg hg]

theorem fillPlantCommonName_superset (name cn : Option LangMap) :
    optSuperset cn (fillPlantCommonName name cn) := by
  cases cn with
  | none => exact optSuperset_none _
  | some c =>
    by_cases hen : truthyGet c "en" = true
    · have h0 : fillPlantCommonName name (some c) =
          some (if !truthyGet (if !truthyGet c "zh-Hant" && truthyOpt name "zh-Hant" then
                jsSet c "zh-Hant" ((getOpt name "zh-Hant").getD "") else c) "zh-Hans"
                && truthyOpt name "zh-Hans" then
              jsSet (if !truthyGet c "zh-Hant" && truthyOpt name "zh-Hant" then
                jsSet c "zh-Hant" ((getOpt name "zh-Hant").getD "") else c) "zh-Hans"
                ((getOpt name "zh-Hans").getD "")
            else (if !truthyGet c "zh-Hant" && truthyOpt name "zh-Hant" then
                jsSet c "zh-Hant" ((getOpt name "zh-Hant").getD "") else c)) := by
        simp [fillPlantCommonName, hen]
      rw [h0]
      apply optSuperset_of_map
      exact mapSuperset_trans (guardedSet_superset c _ _ _) (guardedSet_superset _ _ _ _)
    · have h0 : fillPlantCommonName name (some c) = some c := by
        simp [fillPlantCommonName, hen]
      rw [h0]
      exact optSuperset_of_map (mapSuperset_refl c)

theorem fillPlantCommonName_preserves (name cn : Option LangMap) :
    optPreserves cn (fillPlantCommonName name cn) := by
  cases cn with
  | none => exact optPreserves_none _
  | some c =>
    by_cases hen : truthyGet c "en" = true
    · have h0 : fillPlantCommonName name (some c) =
          some (if !truthyGet (if !truthyGet c "zh-Hant" && truthyOpt name "zh-Hant" then
                jsSet c "zh-Hant" ((getOpt name "zh-Hant").getD "") else c) "zh-Hans"
                && truthyOpt name "zh-Hans" then
              jsSet (if !truthyGet c "zh-Hant" && truthyOpt name "zh-Hant" then
                jsSet c "zh-Hant" ((getOpt name "zh-Hant").getD "") else c) "zh-Hans"
                ((getOpt name "zh-Hans").getD "")
            else (if !truthyGet c "zh-Hant" && truthyOpt name "zh-Hant" then
                jsSet c "zh-Hant" ((getOpt name "zh-Hant").getD "") else c)) := by
        simp [fillPlantCommonName, hen]
      rw [h0]
      apply optPreserves_of_map
      have hstep1 : mapPreserves c (if !truthyGet c "zh-Hant" && truthyOpt name "zh-Hant" then
          jsSet c "zh-Hant" ((getOpt name "zh-Hant").getD "") else c) := by
        apply guardedSet_preserves
        intro hh
        have := ((Bool.and_eq_true _ _).mp hh).1
        simpa using this
      apply mapPreserves_trans hstep1
      apply guardedSet_preserves
      intro hh
      have := ((Bool.and_eq_true _ _).mp hh).1
      simpa using this
    · have h0 : fillPlantCommonName name (some c) = some c := by
        simp [fillPlantCommonName, hen]
      rw [h0]
      exact optPreserves_of_map (mapPreserves_refl c)

theorem fillPlantCommonName_fix (name : Option LangMap) (c2 : LangMap)
    (hen : truthyGet c2 "en" = true)
    (hgA : (!truthyGet c2 "zh-Hant" && truthyOpt name "zh-Hant") = false)
    (hgB : (!truthyGet c2 "zh-Hans" && truthyOpt name "zh-Hans") = false) :
    fillPlantCommonName name (some c2) = some c2 := by
  simp only [fillPlantCommonName]
  rw [if_pos hen]
  have hcn1 : (if !truthyGet c2 "zh-Hant" && truthyOpt name "zh-Hant" then
      jsSet c2 "zh-Hant" ((getOpt name "zh-Hant").getD "") else c2) = c2 := by
    rw [hgA]
    simp
  rw [hcn1, hgB]
  simp

theorem fillPlantCommonName_stable (name cn : Option LangMap) :
    fillPlantCommonName name (fillPlantCommonName name cn) = fillPlantCommonName name cn := by
  cases cn with
  | none => simp [fillPlantCommonName]
  | some c =>
    by_cases hen : truthyGet c "en" = true
    · have h0 : fillPlantCommonName name (some c) =
          some (if !truthyGet (if !truthyGet c "zh-Hant" && truthyOpt name "zh-Hant" then
                jsSet c "zh-Hant" ((getOpt name "zh-Hant").getD "") else c) "zh-Hans"
                && truthyOpt name "zh-Hans" then
              jsSet (if !truthyGet c "zh-Hant" && truthyOpt name "zh-Hant" then
                jsSet c "zh-Hant" ((getOpt name "zh-Hant").getD "") else c) "zh-Hans"
                ((getOpt name "zh-Hans").getD "")
            else (if !truthyGet c "zh-Hant" && truthyOpt name "zh-Hant" then
                jsSet c "zh-Hant" ((getOpt name "zh-Hant").getD "") else c)) := by
        simp [fillPlantCommonName, hen]
      rw [h0]
      have hgB : (!truthyGet (if !truthyGet (if !truthyGet c "zh-Hant" && truthyOpt name "zh-Hant" then
              jsSet c "zh-Hant" ((getOpt name "zh-Hant").getD "") else c) "zh-Hans"
              && truthyOpt name "zh-Hans" then
            jsSet (if !truthyGet c "zh-Hant" && truthyOpt name "zh-Hant" then
              jsSet c "zh-Hant" ((getOpt name "zh-Hant").getD "") else c) "zh-Hans"
              ((getOpt name "zh-Hans").getD "")
          else (if !truthyGet c "zh-Hant" && truthyOpt name "zh-Hant" then
              jsSet c "zh-Hant" ((getOpt name "zh-Hant").getD "") else c)) "zh-Hans"
          && truthyOpt name "zh-Hans") = false :=
        nameCopy_guard_false name _ "zh-Hans"
      have hgA : (!truthyGet (if !truthyGet (if !truthyGet c "zh-Hant" && truthyOpt name "zh-Hant" then
              jsSet c "zh-Hant" ((getOpt name "zh-Hant").getD "") else c) "zh-Hans"
              && truthyOpt name "zh-Hans" then
            jsSet (if !truthyGet c "zh-Hant" && truthyOpt name "zh-Hant" then
              jsSet c "zh-Hant" ((getOpt name "zh-Hant").getD "") else c) "zh-Hans"
              ((getOpt name "zh-Hans").getD "")
          else (if !truthyGet c "zh-Hant" && truthyOpt name "zh-Hant" then
              jsSet c "zh-Hant" ((getOpt name "zh-Hant").getD "") else c)) "zh-Hant"
          && truthyOpt name "zh-Hant") = false := by
        rw [nameCopy_other name _ "zh-Hans" "zh-Hant" (by decide)]
        exact nameCopy_guard_false name c "zh-Hant"
      have hten : truthyGet (if !truthyGet (if !truthyGet c "zh-Hant" && truthyOpt name "zh-Hant" then
              jsSet c "zh-Hant" ((getOpt name "zh-Hant").getD "") else c) "zh-Hans"
              && truthyOpt name "zh-Hans" then
            jsSet (if !truthyGet c "zh-Hant" && truthyOpt name "zh-Hant" then
              jsSet c "zh-Hant" ((getOpt name "zh-Hant").getD "") else c) "zh-Hans"
              ((getOpt name "zh-Hans").getD "")
          else (if !truthyGet c "zh-Hant" && truthyOpt name "zh-Hant" then
              jsSet c "zh-Hant" ((getOpt name "zh-Hant").getD "") else c)) "en" = true := by
        rw [nameCopy_other name _ "zh-Hans" "en" (by decide),
          nameCopy_other name c "zh-Hant" "en" (by decide)]
        exact hen
      exact fillPlantCommonName_fix name _ hten hgA hgB
    · have h0 : fillPlantCommonName name (some c) = some c := by
        simp [fillPlantCommonName, hen]
      rw [h0, h0]

theorem fillTcmField_superset (n : Option LangMap) (f : String) (v : Option LangMap) :
    optSuperset v (fillTcmField n f v) := by
  cases v with
  | none => exact optSuperset_none _
  | some m => exact optSuperset_of_map (fillTcmMap_superset n f m)

theorem fillTcmField_preserves (n : Option LangMap) (f : String) (v : Option LangMap) :
    optPreserves v (fillTcmField n f v) := by
  cases v with
  | none => exact optPreserves_none _
  | some m => exact optPreserves_of_map (fillTcmMap_preserves n f m)

theorem fillTcmField_idem (n : Option LangMap) (f : String) (v : Option LangMap) :
    fillTcmField n f (fillTcmField n f v) = fillTcmField n f v := by
  cases v with
  | none => rfl
  | some m =>
    show some (fillTcmMap n f (fillTcmMap n f m)) = some (fillTcmMap n f m)
    rw [fillTcmMap_idem]

theorem processTcmProfile_idem (d : TcmDoc) :
    processTcmProfile (processTcmProfile d) = processTcmProfile d := by
  simp only [processTcmProfile]
  congr 1 <;> exact fillTcmField_idem _ _ _

theorem processPlantEntity_idem (fp : String) (d : PlantDoc) :
    processPlantEntity fp (processPlantEntity fp d) = processPlantEntity fp d := by
  simp only [processPlantEntity]
  congr 1
  · exact fillPlantDescription_stable fp d _
  · exact fillPlantCommonName_stable d.name d.commonName

theorem option_map_idem {f : LangMap → LangMap} (hf : ∀ m, f (f m) = f m)
    (x : Option LangMap) : (x.map f).map f = x.map f := by
  cases x with
  | none => rfl
  | some m =>
    show some (f (f m)) = some (f m)
    rw [hf]

theorem option_map_superset {f : LangMap → LangMap} (hf : ∀ m, mapSuperset m (f m))
    (x : Option LangMap) : optSuperset x (x.map f) := by
  cases x with
  | none => exact optSuperset_none _
  | some m => exact optSuperset_of_map (hf m)

theorem option_map_preserves {f : LangMap → LangMap} (hf : ∀ m, mapPreserves m (f m))
    (x : Option LangMap) : optPreserves x (x.map f) := by
  cases x with
  | none => exact optPreserves_none _
  | some m => exact optPreserves_of_map (hf m)

theorem processWesternProfile_idem (d : WesternDoc) :
    processWesternProfile (processWesternProfile d) = processWesternProfile d := by
  simp only [processWesternProfile]
  congr 1 <;> exact option_map_idem (fillWesternMap_idem _) _

end FillTranslations

namespace JsUtil

/-- Combined growth-and-stability relation used by claim C4. -/
def fillOk (b a : Option LangMap) : Prop :=
  optSuperset b a ∧ optPreserves b a

end JsUtil

namespace FillTranslations

/-- Ayurveda reference document exhibiting the C4 counterexample: a
concept whose English label is not in AYURVEDA_TERMS, with an authored
zh-Hans label but no zh-Hant label. -/
def ayurDocCE : AyurDoc :=
  ⟨some [⟨"guna/unknown", some [("en", "Mystery"), ("zh-Hans", "神")], none⟩]⟩

/-- Concrete documents used by the C4 witness. -/
def tcmDocW : TcmDoc :=
  ⟨some [("en", "Ginseng")], some [("en", "Historic use")], none, none, none, none, none⟩

end FillTranslations

/-- C4 (amended): the Translation Filler, on plant entities, TCM
profiles and Western profiles, only grows the key set of every
multilingual field, never alters a previously non-empty value, and is
idempotent (filling twice equals filling once); the untouched fields
(name, scientificName) are returned unchanged.  The Ayurveda-reference
branch of the same script is excluded: its generic-label fallback can
overwrite an existing non-empty zh-Hans value (see the
counterexample). -/
theorem C4_translation_filler_superset_preserve_idempotent
    (fp : String) (pd : FillTranslations.PlantDoc) (td : FillTranslations.TcmDoc)
    (wd : FillTranslations.WesternDoc) :
    (JsUtil.fillOk pd.description (FillTranslations.processPlantEntity fp pd).description
      ∧ JsUtil.fillOk pd.commonName (FillTranslations.processPlantEntity fp pd).commonName
      ∧ (FillTranslations.processPlantEntity fp pd).name = pd.name
      ∧ (FillTranslations.processPlantEntity fp pd).scientificName = pd.scientificName
      ∧ FillTranslations.processPlantEntity fp (FillTranslations.processPlantEntity fp pd) =
          FillTranslations.processPlantEntity fp pd)
    ∧ (JsUtil.fillOk td.tcmHistory (FillTranslations.processTcmProfile td).tcmHistory
      ∧ JsUtil.fillOk td.tcmTraditionalUsage
          (FillTranslations.processTcmProfile td).tcmTraditionalUsage
      ∧ JsUtil.fillOk td.tcmModernResearch
          (FillTranslations.processTcmProfile td).tcmModernResearch
      ∧ JsUtil.fillOk td.tcmFunctions (FillTranslations.processTcmProfile td).tcmFunctions
      ∧ JsUtil.fillOk td.contraindications
          (FillTranslations.processTcmProfile td).contraindications
      ∧ JsUtil.fillOk td.dosage (FillTranslations.processTcmProfile td).dosage
      ∧ (FillTranslations.processTcmProfile td).name = td.name
      ∧ FillTranslations.processTcmProfile (FillTranslations.processTcmProfile td) =
          FillTranslations.processTcmProfile td)
    ∧ (JsUtil.fillOk wd.westernHistory
          (FillTranslations.processWesternProfile wd).westernHistory
      ∧ JsUtil.fillOk wd.westernTraditionalUsage
          (FillTranslations.processWesternProfile wd).westernTraditionalUsage
      ∧ JsUtil.fillOk wd.westernModernResearch
          (FillTranslations.processWesternProfile wd).westernModernResearch
      ∧ (FillTranslations.processWesternProfile wd).name = wd.name
      ∧ FillTranslations.processWesternProfile (FillTranslations.processWesternProfile wd) =
          FillTranslations.processWesternProfile wd) := by
  refine ⟨⟨⟨?_, ?_⟩, ⟨?_, ?_⟩, rfl, rfl, ?_⟩,
    ⟨⟨?_, ?_⟩, ⟨?_, ?_⟩, ⟨?_, ?_⟩, ⟨?_, ?_⟩, ⟨?_, ?_⟩, ⟨?_, ?_⟩, rfl, ?_⟩,
    ⟨⟨?_, ?_⟩, ⟨?_, ?_⟩, ⟨?_, ?_⟩, rfl, ?_⟩⟩
  · exact FillTranslations.fillPlantDescription_superset fp pd
  · exact FillTranslations.fillPlantDescription_preserves fp pd
  · exact FillTranslations.fillPlantCommonName_superset pd.name pd.commonName
  · exact FillTranslations.fillPlantCommonName_preserves pd.name pd.commonName
  · exact FillTranslations.processPlantEntity_idem fp pd
  · exact FillTranslations.fillTcmField_superset td.name "tcmHistory" td.tcmHistory
  · exact FillTranslations.fillTcmField_preserves td.name "tcmHistory" td.tcmHistory
  · exact FillTranslations.fillTcmField_superset td.name "tcmTraditionalUsage" td.tcmTraditionalUsage
  · exact FillTranslations.fillTcmField_preserves td.name "tcmTraditionalUsage" td.tcmTraditionalUsage
  · exact FillTranslations.fillTcmField_superset td.name "tcmModernResearch" td.tcmModernResearch
  · exact FillTranslations.fillTcmField_preserves td.name "tcmModernResearch" td.tcmModernResearch
  · exact FillTranslations.fillTcmField_superset td.name "tcmFunctions" td.tcmFunctions
  · exact FillTranslations.fillTcmField_preserves td.name "tcmFunctions" td.tcmFunctions
  · exact FillTranslations.fillTcmField_superset td.name "contraindications" td.contraindications
  · exact FillTranslations.fillTcmField_preserves td.name "contraindications" td.contraindications
  · exact FillTranslations.fillTcmField_superset td.name "dosage" td.dosage
  · exact FillTranslations.fillTcmField_preserves td.name "dosage" td.dosage
  · exact FillTranslations.processTcmProfile_idem td
  · exact FillTranslations.option_map_superset
      (FillTranslations.fillWesternMap_superset _) wd.westernHistory
  · exact FillTranslations.option_map_preserves
      (FillTranslations.fillWesternMap_preserves _) wd.westernHistory
  · exact FillTranslations.option_map_superset
      (FillTranslations.fillWesternMap_superset _) wd.westernTraditionalUsage
  · exact FillTranslations.option_map_preserves
      (FillTranslations.fillWesternMap_preserves _) wd.westernTraditionalUsage
  · exact FillTranslations.option_map_superset
      (FillTranslations.fillWesternMap_superset _) wd.westernModernResearch
  · exact FillTranslations.option_map_preserves
      (FillTranslations.fillWesternMap_preserves _) wd.westernModernResearch
  · exact FillTranslations.processWesternProfile_idem wd

/-- Witness for C4 at concrete documents: a non-empty authored English
value survives filling, and filling the TCM profile twice equals
filling it once. -/
theorem C4_translation_filler_witness :
    JsUtil.getOpt (FillTranslations.processTcmProfile FillTranslations.tcmDocW).tcmHistory
        "en" = some "Historic use"
    ∧ FillTranslations.processTcmProfile
        (FillTranslations.processTcmProfile FillTranslations.tcmDocW) =
      FillTranslations.processTcmProfile FillTranslations.tcmDocW :=
  ⟨(C4_translation_filler_superset_preserve_idempotent "x" ⟨none, none, none, none⟩
      FillTranslations.tcmDocW ⟨none, none, none, none⟩).2.1.1.2 "en" "Historic use"
      (by decide) (by decide),
   (C4_translation_filler_superset_preserve_idempotent "x" ⟨none, none, none, none⟩
      FillTranslations.tcmDocW ⟨none, none, none, none⟩).2.1.2.2.2.2.2.2.2⟩

/-- Counterexample for C4 as stated: running the Translation Filler on
an Ayurveda reference document whose concept label is outside
AYURVEDA_TERMS overwrites the previously non-empty zh-Hans label 神
with the English fallback, so "no previously non-empty value is
altered" fails for documents routed through the Ayurveda-reference
branch. -/
theorem C4_translation_filler_counterexample :
    FillTranslations.processAyurvedaReference FillTranslations.ayurDocCE =
      ⟨some [⟨"guna/unknown",
        some [("en", "Mystery"), ("zh-Hans", "Mystery"), ("zh-Hant", "Mystery")], none⟩]⟩
    ∧ JsUtil.jsGet [("en", "Mystery"), ("zh-Hans", "神")] "zh-Hans" = some "神"
    ∧ ("神" : String) ≠ ""
    ∧ JsUtil.jsGet [("en", "Mystery"), ("zh-Hans", "Mystery"), ("zh-Hant", "Mystery")]
        "zh-Hans" ≠ some "神" := by
  decide

namespace FillTranslations

open JsUtil

/-- Marker predicate from the claim's words: a synthesized value is
"review-marked" when it opens with one of the fixed markers the filler
uses for placeholders (the fullwidth bracket 【 or the ASCII bracket). -/
def isMarked (s : String) : Bool :=
  match s.data with
  | c :: _ => c = '【' || c = '['
  | [] => false

theorem data_head_append (x y : String) (c : Char) (rest : List Char)
    (h : x.data = c :: rest) : (x ++ y).data = c :: (rest ++ y.data) := by
  rw [String.data_append, h]
  rfl

theorem isMarked_tcmPlaceholderZh (n : Option LangMap) (f : String) :
    isMarked (tcmPlaceholderZh n f) = true := by
  have h0 : ("【" : String).data = '【' :: [] := rfl
  have h1 := data_head_append "【" (jsOrS (getOpt n "zh-Hant") (jsOrS (getOpt n "en") "該藥材"))
    '【' [] h0
  have h2 := data_head_append _ "】" '【' _ h1
  have h3 := data_head_append _ (fieldLabel f) '【' _ h2
  have h4 := data_head_append _ "內容待翻譯補充。" '【' _ h3
  rw [tcmPlaceholderZh, isMarked, h4]
  rfl

theorem isMarked_tcmPlaceholderEn (n : Option LangMap) (f : String) :
    isMarked (tcmPlaceholderEn n f) = true := by
  have h0 : ("[" : String).data = '[' :: [] := rfl
  have h1 := data_head_append "[" (fieldLabel f) '[' [] h0
  have h2 := data_head_append _ " information for " '[' _ h1
  have h3 := data_head_append _ (jsOrS (getOpt n "en") (jsOrS (getOpt n "zh-Hant") "This herb"))
    '[' _ h2
  have h4 := data_head_append _ " - translation needed]" '[' _ h3
  rw [tcmPlaceholderEn, isMarked, h4]
  rfl

theorem isMarked_westernPlaceholder (pn : String) :
    isMarked (westernPlaceholder pn) = true := by
  have h0 : ("【" : String).data = '【' :: [] := rfl
  have h1 := data_head_append "【" pn '【' [] h0
  have h2 := data_head_append _ "】在西方草藥學中的應用歷史悠久，現代研究證實其具有多種藥理活性。" '【' _ h1
  rw [westernPlaceholder, isMarked, h2]
  rfl

theorem DESC_TEMPLATES_name_prefix (c nm s : String) :
    nm.data.isPrefixOf (DESC_TEMPLATES c nm s).data = true := by
  rw [DESC_TEMPLATES]
  split_ifs <;>
    (simp only [String.data_append, List.append_assoc]
     rw [List.isPrefixOf_iff_prefix]
     exact List.prefix_append _ _)

/-- Plant entity exhibiting the C6 counterexample: an English-only
description, so the filler synthesizes the Chinese description from
DESC_TEMPLATES. -/
def plantDocCE : PlantDoc :=
  ⟨some [("en", "Mugwort")], some [("en", "A bitter aromatic plant.")], none,
    some "Artemisia vulgaris"⟩

end FillTranslations

/-- C6 (amended): the placeholder values synthesized by the Translation
Filler for TCM and Western profiles are enclosed in the fixed markers
【…】 / […] naming the subject (and, for TCM, the field), and a filled
English-only TCM field receives exactly the marked placeholder; the
generated plant descriptions, by contrast, are templated domain text
that merely begins with the display name and carries no review
marker. -/
theorem C6_synthesized_values_marking (td : FillTranslations.TcmDoc)
    (m : JsUtil.LangMap) (h0 : td.tcmHistory = some m)
    (he : JsUtil.truthyGet m "en" = true)
    (h1 : JsUtil.truthyGet m "zh-Hant" = false)
    (h2 : JsUtil.truthyGet m "zh-Hans" = false) :
    JsUtil.getOpt (FillTranslations.processTcmProfile td).tcmHistory "zh-Hant" =
        some (FillTranslations.tcmPlaceholderZh td.name "tcmHistory")
    ∧ (∀ (n : Option JsUtil.LangMap) (f : String),
        FillTranslations.isMarked (FillTranslations.tcmPlaceholderZh n f) = true
        ∧ FillTranslations.isMarked (FillTranslations.tcmPlaceholderEn n f) = true)
    ∧ (∀ pn : String, FillTranslations.isMarked (FillTranslations.westernPlaceholder pn) = true)
    ∧ (∀ c nm s : String,
        nm.data.isPrefixOf (FillTranslations.DESC_TEMPLATES c nm s).data = true) := by
  refine ⟨?_, fun n f => ⟨FillTranslations.isMarked_tcmPlaceholderZh n f,
      FillTranslations.isMarked_tcmPlaceholderEn n f⟩,
    FillTranslations.isMarked_westernPlaceholder,
    FillTranslations.DESC_TEMPLATES_name_prefix⟩
  show JsUtil.getOpt (FillTranslations.fillTcmField td.name "tcmHistory" td.tcmHistory)
      "zh-Hant" = _
  rw [h0]
  show JsUtil.jsGet (FillTranslations.fillTcmMap td.name "tcmHistory" m) "zh-Hant" = _
  have hA : FillTranslations.tcmStepHansFromHant m = m := by
    simp [FillTranslations.tcmStepHansFromHant, h1]
  have hC : FillTranslations.tcmStepZhPlaceholder td.name "tcmHistory" m =
      JsUtil.jsSet (JsUtil.jsSet m "zh-Hant"
        (FillTranslations.tcmPlaceholderZh td.name "tcmHistory")) "zh-Hans"
        (FillTranslations.tradToSimp (FillTranslations.tcmPlaceholderZh td.name "tcmHistory")) := by
    simp [FillTranslations.tcmStepZhPlaceholder, he, h1, h2]
  have hB : FillTranslations.tcmStepHantFromHans m = m := by
    simp [FillTranslations.tcmStepHantFromHans, h2]
  have hen3 : JsUtil.truthyGet (JsUtil.jsSet (JsUtil.jsSet m "zh-Hant"
      (FillTranslations.tcmPlaceholderZh td.name "tcmHistory")) "zh-Hans"
      (FillTranslations.tradToSimp (FillTranslations.tcmPlaceholderZh td.name "tcmHistory")))
      "en" = true := by
    rw [JsUtil.truthyGet_jsSet_other _ _ _ _ (by decide),
      JsUtil.truthyGet_jsSet_other _ _ _ _ (by decide)]
    exact he
  have hD : FillTranslations.tcmStepEnPlaceholder td.name "tcmHistory"
      (JsUtil.jsSet (JsUtil.jsSet m "zh-Hant"
        (FillTranslations.tcmPlaceholderZh td.name "tcmHistory")) "zh-Hans"
        (FillTranslations.tradToSimp (FillTranslations.tcmPlaceholderZh td.name "tcmHistory"))) =
      JsUtil.jsSet (JsUtil.jsSet m "zh-Hant"
        (FillTranslations.tcmPlaceholderZh td.name "tcmHistory")) "zh-Hans"
        (FillTranslations.tradToSimp (FillTranslations.tcmPlaceholderZh td.name "tcmHistory")) := by
    simp [FillTranslations.tcmStepEnPlaceholder, hen3]
  rw [FillTranslations.fillTcmMap, hA, hB, hC, hD,
    JsUtil.jsGet_jsSet_other _ _ _ _ (by decide), JsUtil.jsGet_jsSet_same]

/-- Witness for C6: on a concrete TCM profile with an English-only
history field the filler writes the marked placeholder. -/
theorem C6_synthesized_values_marking_witness :
    JsUtil.getOpt (FillTranslations.processTcmProfile FillTranslations.tcmDocW).tcmHistory
        "zh-Hant" =
      some (FillTranslations.tcmPlaceholderZh FillTranslations.tcmDocW.name "tcmHistory")
    ∧ FillTranslations.isMarked
        (FillTranslations.tcmPlaceholderZh FillTranslations.tcmDocW.name "tcmHistory") = true :=
  ⟨(C6_synthesized_values_marking FillTranslations.tcmDocW [("en", "Historic use")] rfl
      (by decide) (by decide) (by decide)).1,
   ((C6_synthesized_values_marking FillTranslations.tcmDocW [("en", "Historic use")] rfl
      (by decide) (by decide) (by decide)).2.1 FillTranslations.tcmDocW.name "tcmHistory").1⟩

/-- Counterexample for C6 as stated: the Chinese description the filler
synthesizes for a plant entity is generated template text with no
review marker, distinguishable from authored content only by its
wording, and it asserts domain content (medicinal value) the author
never wrote. -/
theorem C6_synthesized_values_marking_counterexample :
    JsUtil.getOpt FillTranslations.plantDocCE.description "zh-Hant" = none
    ∧ JsUtil.getOpt (FillTranslations.processPlantEntity
        "entities/plants/mugwort/entity.jsonld" FillTranslations.plantDocCE).description
        "zh-Hant" =
      some (FillTranslations.DESC_TEMPLATES "default" "Mugwort" "Artemisia vulgaris")
    ∧ FillTranslations.isMarked
        (FillTranslations.DESC_TEMPLATES "default" "Mugwort" "Artemisia vulgaris") = false := by
  decide

namespace FixNames

open JsUtil

/-- TYPO_CORRECTIONS from scripts/fix-scientific-names.js (lines
28–56), in declaration order. -/
def TYPO_CORRECTIONS : List (String × String) :=
  [("Atractytlodes", "Atractylodes"),
   ("Miltorrhiza", "miltiorrhiza"),
   ("Ziaiphus Jujube Mill. Var. Spinosa", "Ziziphus jujuba var. spinosa"),
   ("Corus officinalis", "Cornus officinalis"),
   ("Coriolus Versicolour, Trametes versicolor", "Trametes versicolor"),
   ("Arctium lappi", "Arctium lappa"),
   ("Serenoa Serrulata", "Serenoa repens"),
   ("Rhodiola Sacra", "Rhodiola rosea"),
   ("Rosmarinus Officinalis", "Salvia rosmarinus"),
   ("Citrus Reticulate Blanco", "Citrus reticulata"),
   ("Ostrea Gigas", "Crassostrea gigas"),
   ("Cynomorium songaricum Rupr.", "Cynomorium coccineum"),
   ("Albizzia Julibrissin Durazz", "Albizia julibrissin"),
   ("Morindae Officinalis", "Morinda officinalis"),
   ("Achyranthis bidentatae", "Achyranthes bidentata"),
   ("Polygonum Bistortae", "Bistorta officinalis"),
   ("Cimicifuga heracleifolia Kom.", "Actaea heracleifolia"),
   ("radix angelicae pubescentisa", "Angelica pubescens"),
   ("Artemisiae Argyi", "Artemisia argyi"),
   ("Ligusticum chuanxiong Hort", "Ligusticum striatum"),
   ("Gastrodia elatae", "Gastrodia elata"),
   ("Alisma orientalis", "Alisma plantago-aquatica"),
   ("Polygonum multiflorum Thunb.", "Reynoutria multiflora"),
   ("Polygonum multiflorum Thunb", "Reynoutria multiflora"),
   ("Zea Mays (LINN.)", "Zea mays"),
   ("Vaccinium Macrocarpon", "Vaccinium macrocarpon"),
   ("Magnolia denudata", "Magnolia denudata")]

/-- AUTHOR_CITATIONS from scripts/fix-scientific-names.js (lines
59–71), in declaration order (case-sensitive). -/
def AUTHOR_CITATIONS : List String :=
  ["Y. C. Ma", "Y C Ma",
   "L.", "Bge.", "Hort", "Oliv.", "Thunb.", "Durazz", "Michx.",
   "Rupr.", "Ma", "Kom.", "Lindl.", "Lam", "DC.", "C.A.Mey",
   "C. A. Mey", "Harv.", "Setch.", "Blanco", "(LINN.)",
   "Ramat.", "Sacc.", "Nannf.", "Moench", "Gaertn", "Batsch",
   "Franch.", "BerK.", "Vent. Ex Pers.", "Vent Ex Pers.", "Fischer",
   "(Harv.) Setch.", "(Franch.) Nannf.", "(BerK.) Sacc.",
   "(Vent. Ex Pers.) Fischer", "(Vent Ex Pers.) Fischer",
   "(L.) Moench", "(L.) Gaertn", "(L.) Batsch", "(Thunb.) DC.",
   "(DC. ) Koidz.", "Koidz.", "Thumb", "(Thumb)",
   "C. A. Mey."]

/-- SKIP_PATTERNS from scripts/fix-scientific-names.js (lines 74–81). -/
def SKIP_PATTERNS : List String :=
  ["Massa Fermentata", "Processed", "Carapace", "fatty acids",
   "DHA", "EPA", "GLA", "LA", "AA",
   "Tocopherol", "Retinol", "Ascorbic"]

/-- Global replace of the regex `\s*LIT\s*` (LIT a regex-escaped
literal) by a single space: the form built in the author-citation loop
(fix-scientific-names.js lines 119–125).  No citation begins with
whitespace, so the leading `\s*` of a leftmost match always consumes
exactly the whitespace run preceding the literal; the trailing `\s*`
is greedy.  Fuel (the input length) only forces termination: every
step consumes at least one character. -/
def gsubWsLitWs (lit : List Char) : Nat → List Char → List Char
  | _, [] => []
  | 0, s => s
  | fuel + 1, c :: cs =>
    let rest := (c :: cs).dropWhile isJsWs
    if lit ≠ [] ∧ lit.isPrefixOf rest then
      ' ' :: gsubWsLitWs lit fuel ((rest.drop lit.length).dropWhile isJsWs)
    else
      c :: gsubWsLitWs lit fuel cs

/-- Character class `[A-Za-z\.\s]` of the complex-citation patterns. -/
def isClassChar (c : Char) : Bool :=
  c.isAlpha || c = '.' || isJsWs c

/-- Leftmost-match attempt for `\s*\([A-Za-z\.\s]+\)\s*`
(fix-scientific-names.js line 110).  `)` is outside the class, so the
greedy `+` runs to the first non-class character, which must then be
the closing parenthesis. -/
def matchParen1 (s : List Char) : Option (List Char) :=
  match s.dropWhile isJsWs with
  | '(' :: r =>
    if r.takeWhile isClassChar ≠ [] then
      match r.dropWhile isClassChar with
      | ')' :: r2 => some (r2.dropWhile isJsWs)
      | _ => none
    else none
  | _ => none

/-- Global replace for the first complex pattern. -/
def gsubParen1 : Nat → List Char → List Char
  | _, [] => []
  | 0, s => s
  | fuel + 1, c :: cs =>
    match matchParen1 (c :: cs) with
    | some r => ' ' :: gsubParen1 fuel r
    | none => c :: gsubParen1 fuel cs

/-- Case-insensitive " Ex " test at offset `p` of the class run, used
by the second complex pattern. -/
def isExSplit (m : List Char) (p : Nat) : Bool :=
  match m.drop p with
  | ' ' :: e :: x :: ' ' :: _ => (e = 'E' || e = 'e') && (x = 'X' || x = 'x')
  | _ => false

/-- Greedy choice of the `X+` part in `X+ Ex Y+`: the last admissible
split point (X and Y non-empty). -/
def lastExSplit (m : List Char) : Option Nat :=
  (List.range m.length).foldl (fun acc p =>
    if 1 ≤ p ∧ p + 4 < m.length ∧ isExSplit m p then some p else acc) none

/-- Leftmost-match attempt for
`\s*\([A-Za-z\.\s]+ Ex [A-Za-z\.\s]+\)\s*` with the `i` flag
(fix-scientific-names.js line 111).  The matched span is the whole
parenthesized class run regardless of where " Ex " splits it. -/
def matchParen2 (s : List Char) : Option (List Char) :=
  match s.dropWhile isJsWs with
  | '(' :: r =>
    match r.dropWhile isClassChar with
    | ')' :: r2 =>
      match lastExSplit (r.takeWhile isClassChar) with
      | some _ => some (r2.dropWhile isJsWs)
      | none => none
    | _ => none
  | _ => none

/-- Global replace for the second complex pattern. -/
def gsubParen2 : Nat → List Char → List Char
  | _, [] => []
  | 0, s => s
  | fuel + 1, c :: cs =>
    match matchParen2 (c :: cs) with
    | some r => ' ' :: gsubParen2 fuel r
    | none => c :: gsubParen2 fuel cs

/-- Global replace of `\s+` by a single space (line 129). -/
def collapseWs : Nat → List Char → List Char
  | _, [] => []
  | 0, s => s
  | fuel + 1, c :: cs =>
    if isJsWs c then ' ' :: collapseWs fuel (cs.dropWhile isJsWs)
    else c :: collapseWs fuel cs

/-- Global replace of `\s+\.` by the empty string (line 131). -/
def gsubWsDot : Nat → List Char → List Char
  | _, [] => []
  | 0, s => s
  | fuel + 1, c :: cs =>
    if isJsWs c then
      match (c :: cs).dropWhile isJsWs with
      | '.' :: r => gsubWsDot fuel r
      | _ => c :: gsubWsDot fuel cs
    else c :: gsubWsDot fuel cs

/-- Global replace of `\.\s+` by a single space (line 132). -/
def gsubDotWs : Nat → List Char → List Char
  | _, [] => []
  | 0, s => s
  | fuel + 1, c :: cs =>
    if c = '.' then
      match cs with
      | d :: _ =>
        if isJsWs d then ' ' :: gsubDotWs fuel (cs.dropWhile isJsWs)
        else c :: gsubDotWs fuel cs
      | [] => c :: gsubDotWs fuel cs
    else c :: gsubDotWs fuel cs

/-- Global replace of `\(\s*\)` by the empty string (line 133). -/
def gsubEmptyParens : Nat → List Char → List Char
  | _, [] => []
  | 0, s => s
  | fuel + 1, c :: cs =>
    if c = '(' then
      match cs.dropWhile isJsWs with
      | ')' :: r => gsubEmptyParens fuel r
      | _ => c :: gsubEmptyParens fuel cs
    else c :: gsubEmptyParens fuel cs

/-- Global replace of `\(\s+` by an opening parenthesis (line 134). -/
def gsubParenWs : Nat → List Char → List Char
  | _, [] => []
  | 0, s => s
  | fuel + 1, c :: cs =>
    if c = '(' then
      match cs with
      | d :: _ =>
        if isJsWs d then '(' :: gsubParenWs fuel (cs.dropWhile isJsWs)
        else c :: gsubParenWs fuel cs
      | [] => c :: gsubParenWs fuel cs
    else c :: gsubParenWs fuel cs

/-- Global replace of `\s+\)` by a closing parenthesis (line 135). -/
def gsubWsParen : Nat → List Char → List Char
  | _, [] => []
  | 0, s => s
  | fuel + 1, c :: cs =>
    if isJsWs c then
      match (c :: cs).dropWhile isJsWs with
      | ')' :: r => ')' :: gsubWsParen fuel r
      | _ => c :: gsubWsParen fuel cs
    else c :: gsubWsParen fuel cs

/-- Result of fixScientificName: the cleaned name and the skip flag. -/
structure FixResult where
  name : String
  skipped : Bool
  deriving DecidableEq

/-- Function fixScientificName from scripts/fix-scientific-names.js
(lines 89–144): typo corrections (first occurrence replaced when the
pattern matches exactly or as a substring), the two parenthesized
complex patterns, the author-citation loop, the punctuation cleanup
chain in source order, trim, and trailing-period removal. -/
def fixScientificName (name : String) : FixResult :=
  if name = "" then ⟨name, false⟩
  else
    let fixed := jsTrim name
    if SKIP_PATTERNS.any (fun p => occursIn p fixed) then ⟨fixed, true⟩
    else
      let fixed := TYPO_CORRECTIONS.foldl (fun f p =>
        if f = p.1 || occursIn p.1 f then jsReplaceFirst p.1 p.2 f else f) fixed
      let fixed : String := ⟨gsubParen1 fixed.data.length fixed.data⟩
      let fixed : String := ⟨gsubParen2 fixed.data.length fixed.data⟩
      let fixed := AUTHOR_CITATIONS.foldl (fun (f : String) cit =>
        ⟨gsubWsLitWs cit.data f.data.length f.data⟩) fixed
      let fixed : String := ⟨collapseWs fixed.data.length fixed.data⟩
      let fixed : String := ⟨gsubWsLitWs [','] fixed.data.length fixed.data⟩
      let fixed : String := ⟨gsubWsDot fixed.data.length fixed.data⟩
      let fixed : String := ⟨gsubDotWs fixed.data.length fixed.data⟩
      let fixed : String := ⟨gsubEmptyParens fixed.data.length fixed.data⟩
      let fixed : String := ⟨gsubParenWs fixed.data.length fixed.data⟩
      let fixed : String := ⟨gsubWsParen fixed.data.length fixed.data⟩
      let fixed := jsTrim fixed
      let fixed : String := if fixed.data.getLast? = some '.' then ⟨fixed.data.dropLast⟩ else fixed
      ⟨fixed, false⟩

end FixNames

set_option maxRecDepth 20000 in
/-- C7 (amended): the Name Normalizer maps "Polygonum multiflorum
Thunb." to "Reynoutria multiflora" (the typo/synonym table fires before
citation stripping), but the already-clean input "Ziziphus jujuba var.
spinosa" is NOT returned unchanged: the punctuation-cleanup rule that
rewrites a period followed by whitespace to a single space strips the
dot of the rank abbreviation, yielding "Ziziphus jujuba var
spinosa". -/
theorem C7_name_normalizer_outputs :
    FixNames.fixScientificName "Polygonum multiflorum Thunb." =
      ⟨"Reynoutria multiflora", false⟩
    ∧ FixNames.fixScientificName "Ziziphus jujuba var. spinosa" =
      ⟨"Ziziphus jujuba var spinosa", false⟩ := by
  decide

set_option maxRecDepth 20000 in
/-- Counterexample for C7 as stated: "Ziziphus jujuba var. spinosa"
does not map to itself — the `\.\s+` cleanup removes the period after
the rank abbreviation. -/
theorem C7_name_normalizer_counterexample :
    (FixNames.fixScientificName "Ziziphus jujuba var. spinosa").name ≠
      "Ziziphus jujuba var. spinosa"
    ∧ (FixNames.fixScientificName "Ziziphus jujuba var. spinosa").name =
      "Ziziphus jujuba var spinosa" := by
  decide

set_option maxRecDepth 20000 in
/-- C8: evaluation of the code at the failing input.  The author
citation "Ma" is stripped from inside the word "Magnolia" because the
generated regex `\s*Ma\s*` carries no word boundary, although the
code's own comment says "Match citation with word boundaries": the
genus name is mangled to "gnolia".  Even "Magnolia denudata", which
the TYPO_CORRECTIONS table maps to itself (evidently to protect it),
is mangled the same way. -/
theorem C8_citation_stripped_inside_word :
    FixNames.fixScientificName "Magnolia officinalis" = ⟨"gnolia officinalis", false⟩
    ∧ FixNames.fixScientificName "Magnolia denudata" = ⟨"gnolia denudata", false⟩ := by
  decide

namespace Validate

open JsUtil

/-- JSON value as produced by JSON.parse. -/
inductive JVal where
  | jnull
  | jbool (b : Bool)
  | jnum (n : Int)
  | jstr (s : String)
  | jarr (vs : List JVal)
  | jobj (fields : List (String × JVal))

/-- JavaScript truthiness of a JSON value (objects and arrays are
always truthy, null never is). -/
def truthy : JVal → Bool
  | .jnull => false
  | .jbool b => b
  | .jnum n => n ≠ 0
  | .jstr s => s ≠ ""
  | .jarr _ => true
  | .jobj _ => true

/-- Top-level fields of a parsed JSON-LD document; JSON.parse keeps the
last binding of a duplicated key. -/
abbrev JDoc := List (String × JVal)

def docGet : JDoc → String → Option JVal
  | [], _ => none
  | e :: rest, k =>
    match docGet rest k with
    | some v => some v
    | none => if e.1 = k then some e.2 else none

/-- Truthiness of `data[k]` (undefined is falsy). -/
def truthyAt (d : JDoc) (k : String) : Bool :=
  match docGet d k with
  | some v => truthy v
  | none => false

/-- Value of `data['@id'] || ''`. -/
def idVal (d : JDoc) : JVal :=
  match docGet d "@id" with
  | some v => if truthy v then v else .jstr ""
  | none => .jstr ""

/-- The nonPlantSlugs array of SimpleValidator.validatePlant
(scripts/validate.js lines 61–74). -/
def nonPlantSlugs : List String :=
  ["calcium", "copper", "iodine", "iron", "magnesium", "manganese", "potassium",
   "selenium", "zinc",
   "capigen", "ceramides", "chitosan", "choline", "chondroitin-sulfate", "cysteine-hci",
   "epicutin-tt", "factor-arl", "glucosamine-sulfate", "glycerin", "glycine",
   "hydration-factor-cte4", "inositol", "lecithin", "linolenic-acid", "lysine",
   "melatonin", "methionine", "mineral-oil", "mpc", "paba", "petrolatum", "phospholipids",
   "saw-palmetto", "squalene",
   "royal-jelly", "argan-oil", "balm-mint-oil", "clove-oil", "eucalyptus-oil",
   "evening-primrose-oil", "jojoba-seed-oil", "lavender-oil", "peppermint-oil",
   "rosemary-oil", "sage-oil", "tea-tree-oil", "thyme-oil", "amber"]

/-- Element test of JavaScript `Array.prototype.includes` with a
string argument: strict equality only ever holds against string
elements. -/
def includesStr (vs : List JVal) (s : String) : Bool :=
  vs.any (fun v => match v with | .jstr t => t == s | _ => false)

/-- The isPlant computation (validate.js line 75).  `id.includes(s)` is
a substring test on a string id and an element test on an array id;
JavaScript throws a TypeError on any other truthy id (numbers and
booleans have no `includes` method), which validateFile catches and
turns into a parse-style failure — modelled with `Except`. -/
def isPlantOf (d : JDoc) : Except String Bool :=
  match idVal d with
  | .jstr t =>
    .ok (!(nonPlantSlugs.any (fun s => occursIn s t)) && !occursIn "vitamin-" t
      && !occursIn "omega" t)
  | .jarr vs =>
    .ok (!(nonPlantSlugs.any (fun s => includesStr vs s))
      && !includesStr vs "vitamin-" && !includesStr vs "omega")
  | _ => .error "TypeError: id.includes is not a function"

/-- Language-tag test of validateLanguageMap: the regular expression
`^[a-z]{2}(-[A-Z]{2})?$`. -/
def langTagMatch (k : String) : Bool :=
  match k.data with
  | [a, b] => a.isLower && a.isAlpha && b.isLower && b.isAlpha
  | [a, b, h, c, d] => a.isLower && a.isAlpha && b.isLower && b.isAlpha && h = '-'
      && c.isUpper && d.isUpper
  | _ => false

/-- SimpleValidator.validateLanguageMap (validate.js lines 224–231),
returning the warnings it pushes.  A falsy value returns nothing; a
string is a shape warning; for an object (typeof 'object') at least
one key must look like a language tag — for an array the keys are its
index strings, which never match the tag pattern.  Numbers and
booleans fall through both typeof branches. -/
def validateLanguageMap (value : JVal) (propName : String) : List String :=
  if !truthy value then []
  else match value with
    | .jstr _ => [propName ++ " should be a language map, not a string"]
    | .jobj fields =>
      if !(fields.any (fun e => langTagMatch e.1)) then
        [propName ++ " language map should use valid language codes (en, zh-Hant, etc.)"]
      else []
    | .jarr vs =>
      if !((List.range vs.length).any (fun i => langTagMatch (toString i))) then
        [propName ++ " language map should use valid language codes (en, zh-Hant, etc.)"]
      else []
    | _ => []

/-- SimpleValidator.validateIri (validate.js lines 233–244): every
branch returns without appending anything (a malformed reference "is
not necessarily an error"), so the function contributes no messages. -/
def validateIri (_ : JVal) : List String := []

/-- Value of `data['schema:name'] || data.name`. -/
def docOrKeys (d : JDoc) (k1 k2 : String) : JVal :=
  let v1 := (docGet d k1).getD .jnull
  if truthy v1 then v1 else (docGet d k2).getD .jnull

/-- The systemScopedProps array of validatePlant (validate.js lines
108–113). -/
def systemScopedProps : List String :=
  ["herbapedia:traditionalUsage", "traditionalUsage",
   "herbapedia:modernResearch", "modernResearch",
   "herbapedia:functions", "functions",
   "tcm:traditionalUsage", "ayurveda:traditionalUsage", "western:traditionalUsage"]

/-- Error message pushed for a scoped property (validate.js lineved 116),
written with the template's prefix split off so the ScopeViolation
classifier below is purely syntactic; the string value is identical to
the source template. -/
def scopeMsg (prop : String) : String :=
  "Plant entity should NOT contain system-scoped content:" ++ " " ++ prop ++
    ". Move to system profile."

/-- ScopeViolation classifier: the scoped-content messages are exactly
the errors carrying this prefix. -/
def isScopeMsg (e : String) : Bool :=
  "Plant entity should NOT contain system-scoped content:".data.isPrefixOf e.data

/-- SimpleValidator.validatePlant (scripts/validate.js lines 55–121):
errors and warnings in push order.  The three validateIri calls append
nothing (see `validateIri`) and are kept for the warning order only. -/
def validatePlant (data : JDoc) : Except String (List String × List String) :=
  match isPlantOf data with
  | .error e => .error e
  | .ok isPlant =>
    let errors :=
      (if !truthyAt data "@id" then ["Missing required property: @id"] else [])
      ++ (if !truthyAt data "@type" then ["Missing required property: @type"] else [])
      ++ (if isPlant && !truthyAt data "dwc:scientificName"
            && !truthyAt data "scientificName" then
          ["Missing required property: scientificName"] else [])
      ++ (if !truthyAt data "schema:name" && !truthyAt data "name" then
          ["Missing required property: name"] else [])
      ++ (systemScopedProps.filter (fun p => truthyAt data p)).map scopeMsg
    let warnings :=
      (if truthyAt data "@type"
          && !(match docGet data "@type" with | some (.jarr _) => true | _ => false) then
        ["@type should be an array"] else [])
      ++ validateLanguageMap (docOrKeys data "schema:name" "name") "name"
      ++ validateIri (docOrKeys data "schema:sameAs" "sameAs")
      ++ validateIri (docOrKeys data "herbapedia:hasPart" "hasPart")
      ++ validateIri (docOrKeys data "herbapedia:containsChemical" "containsChemical")
    .ok (errors, warnings)

/-- Key set from the claim's words: the generic content keys and their
system-prefixed variants listed in the repository guidelines
(tcmFunctions etc.). -/
def claimScopedKeys : List String :=
  ["traditionalUsage", "modernResearch", "functions",
   "herbapedia:traditionalUsage", "herbapedia:modernResearch", "herbapedia:functions",
   "tcm:traditionalUsage", "ayurveda:traditionalUsage", "western:traditionalUsage",
   "tcmFunctions", "tcmTraditionalUsage", "tcmModernResearch",
   "ayurvedaTraditionalUsage", "ayurvedaModernResearch",
   "westernTraditionalUsage", "westernModernResearch"]

theorem isScopeMsg_scopeMsg (p : String) : isScopeMsg (scopeMsg p) = true := by
  rw [isScopeMsg, scopeMsg]
  simp only [String.data_append, List.append_assoc]
  rw [List.isPrefixOf_iff_prefix]
  exact List.prefix_append _ _

/-- Plant document used as the C1 counterexample: well-formed except
for carrying the system-prefixed content key tcmFunctions, which the
validator's fixed nine-key list does not cover. -/
def plantJsonCE : JDoc :=
  [("@id", .jstr "plant/test-herb"),
   ("@type", .jarr [.jstr "schema:Plant"]),
   ("scientificName", .jstr "Testus plantus"),
   ("name", .jobj [("en", .jstr "Test")]),
   ("tcmFunctions", .jobj [("en", .jstr "Tonifies Qi"), ("zh-Hant", .jstr "補氣")])]

/-- Plant document carrying a generic traditionalUsage key, used by the
C1 witness. -/
def plantJsonW : JDoc :=
  [("@id", .jstr "plant/x"),
   ("@type", .jarr [.jstr "schema:Plant"]),
   ("scientificName", .jstr "Aa bb"),
   ("name", .jobj [("en", .jstr "X")]),
   ("traditionalUsage", .jobj [("en", .jstr "use")])]

end Validate

/-- C1 (amended): for every Plant document on which the Structural
Validator runs to completion, its error list contains zero
ScopeViolation messages if and only if none of the NINE keys of the
validator's systemScopedProps list (the generic content keys, their
herbapedia:-prefixed forms, and tcm:/ayurveda:/western:
traditionalUsage) is present with a truthy value.  The claim's larger
key family — in particular camel-case system-prefixed fields such as
tcmFunctions — is not checked by the validator (see the
counterexample). -/
theorem C1_validator_scope_iff (data : Validate.JDoc) (errors warnings : List String)
    (h : Validate.validatePlant data = .ok (errors, warnings)) :
    (errors.countP Validate.isScopeMsg = 0 ↔
      ∀ p ∈ Validate.systemScopedProps, Validate.truthyAt data p = false) := by
  rw [Validate.validatePlant] at h
  cases hp : Validate.isPlantOf data with
  | error e => rw [hp] at h; exact absurd h (by simp)
  | ok isPlant =>
    rw [hp] at h
    have herr : errors =
        (if !Validate.truthyAt data "@id" then ["Missing required property: @id"] else [])
        ++ (if !Validate.truthyAt data "@type" then ["Missing required property: @type"] else [])
        ++ (if isPlant && !Validate.truthyAt data "dwc:scientificName"
              && !Validate.truthyAt data "scientificName" then
            ["Missing required property: scientificName"] else [])
        ++ (if !Validate.truthyAt data "schema:name" && !Validate.truthyAt data "name" then
            ["Missing required property: name"] else [])
        ++ (Validate.systemScopedProps.filter
            (fun p => Validate.truthyAt data p)).map Validate.scopeMsg := by
      have := h
      simp only [Except.ok.injEq, Prod.mk.injEq] at this
      exact this.1.symm
    have hz : ∀ (c : Bool) (msg : String), Validate.isScopeMsg msg = false →
        List.countP Validate.isScopeMsg (if c then [msg] else []) = 0 := by
      intro c msg hm
      cases c
      · simp
      · simp [List.countP_cons, hm]
    have hfull : List.countP Validate.isScopeMsg
        ((Validate.systemScopedProps.filter
          (fun p => Validate.truthyAt data p)).map Validate.scopeMsg) =
        (Validate.systemScopedProps.filter (fun p => Validate.truthyAt data p)).length := by
      rw [List.countP_map]
      apply List.countP_eq_length.mpr
      intro a _
      exact Validate.isScopeMsg_scopeMsg a
    rw [herr]
    rw [List.countP_append, List.countP_append, List.countP_append, List.countP_append]
    rw [hz _ _ (by decide), hz _ _ (by decide), hz _ _ (by decide), hz _ _ (by decide), hfull]
    simp only [Nat.zero_add, List.length_eq_zero, List.filter_eq_nil_iff]
    constructor
    · intro hnil p hp
      have := hnil p hp
      simpa using this
    · intro hall p hp
      simp [hall p hp]

/-- Witness for C1 at a concrete document: a plant document carrying a
generic traditionalUsage key yields a non-zero ScopeViolation count. -/
theorem C1_validator_scope_iff_witness :
    ([Validate.scopeMsg "traditionalUsage"] : List String).countP Validate.isScopeMsg ≠ 0 := by
  intro hc
  have h := (C1_validator_scope_iff Validate.plantJsonW
    [Validate.scopeMsg "traditionalUsage"] [] (by rfl)).mp hc "traditionalUsage" (by decide)
  exact absurd h (by decide)

/-- Counterexample for C1 as stated: a Plant document containing the
system-prefixed content key tcmFunctions passes the validator with zero
errors (and zero ScopeViolation messages), although it does contain a
system-scoped content key in the claim's sense. -/
theorem C1_validator_scope_iff_counterexample :
    Validate.validatePlant Validate.plantJsonCE = .ok ([], [])
    ∧ Validate.truthyAt Validate.plantJsonCE "tcmFunctions" = true
    ∧ "tcmFunctions" ∈ Validate.claimScopedKeys := by
  refine ⟨?_, by decide, by decide⟩
  rfl

namespace LinkGbif

open JsUtil

/-- External link entry: a bare-string IRI or an `{'@id': url}` object,
the two shapes the linking scripts read via
`typeof link === 'object' ? link['@id'] || link : link`; every object
link in the corpus carries a non-empty `@id`. -/
inductive JLink where
  | jstr (s : String)
  | jobj (id : String)
  deriving DecidableEq

def JLink.url : JLink → String
  | .jstr s => s
  | .jobj i => i

/-- Stored shape of the sameAs field: absent (or JavaScript-falsy), a
single link, or an array of links. -/
inductive SameAsVal where
  | missing
  | single (l : JLink)
  | arr (ls : List JLink)
  deriving DecidableEq

/-- Normalization `Array.isArray(entity.sameAs) ? entity.sameAs :
[entity.sameAs]` performed by hasGbifLink and addGbifLink. -/
def SameAsVal.toList : SameAsVal → List JLink
  | .missing => []
  | .single l => [l]
  | .arr ls => ls

/-- Fields of a plant entity read or written by link-gbif.js. -/
structure PlantEntity where
  scientificName : Option String
  sameAs : SameAsVal
  gbifId : Option Nat
  deriving DecidableEq

/-- Function hasGbifLink (link-gbif.js lines 320–327):
`if (!entity.sameAs) return false`, then a substring scan of each
link's URL for "gbif.org". -/
def hasGbifLink (entity : PlantEntity) : Bool :=
  match entity.sameAs with
  | .missing => false
  | v => v.toList.any (fun l => occursIn "gbif.org" l.url)

/-- URL constructed by addGbifLink (line 333). -/
def gbifUrl (gbifId : Nat) : String :=
  "https://www.gbif.org/species/" ++ toString gbifId

/-- Function addGbifLink (link-gbif.js lines 332–355); its
scientificName parameter is unused in the source body too. -/
def addGbifLink (entity : PlantEntity) (gbifId : Nat) (_scientificName : String) :
    PlantEntity :=
  let ls := entity.sameAs.toList
  let ls := if ls.any (fun l => l.url = gbifUrl gbifId) then ls
    else ls ++ [JLink.jobj (gbifUrl gbifId)]
  { entity with sameAs := .arr ls, gbifId := some gbifId }

/-- Response of the GBIF species/match endpoint, as read by
processPlantEntity; `none` at the call site models a failed request
(matchGbifSpecies returns null on errors and timeout). -/
structure GbifMatch where
  matchType : Option String
  speciesKey : Option Nat
  confidence : Option Int
  scientificName : Option String
  deriving DecidableEq

/-- The acceptance guard
`match && match.matchType && match.matchType !== 'NONE' &&
match.speciesKey` (line 390), truthiness included (an empty matchType
or a zero speciesKey is falsy). -/
def matchAccepted (m : GbifMatch) : Bool :=
  (match m.matchType with | some t => t ≠ "" && t ≠ "NONE" | none => false)
  && (match m.speciesKey with | some k => k ≠ 0 | none => false)

/-- The guard applied to a possibly-missing response. -/
def acceptedOf : Option GbifMatch → Bool
  | some m => matchAccepted m
  | none => false

/-- Value of `match.confidence || 0` (line 391). -/
def confOf (m : GbifMatch) : Int :=
  match m.confidence with
  | some c => c
  | none => 0

/-- Per-entity outcome of processPlantEntity (its `status` field plus
the payloads the claims are about). -/
inductive LinkStatus where
  | skipped (reason : String)
  | linked (gbifId : Nat) (matchType : String) (confidence : Int)
  | lowConfidence (confidence : Int)
  | notFound (searched : List String)
  deriving DecidableEq

/-- Test used to state that an outcome is a low-confidence
classification. -/
def LinkStatus.isLowConfidence : LinkStatus → Bool
  | .lowConfidence _ => true
  | _ => false

/-- Prefix of a string before the first occurrence of a non-empty
separator: JavaScript `s.split(sep)[0]`. -/
def beforeFirstL (sep : List Char) : List Char → List Char
  | [] => []
  | c :: cs =>
    if sep ≠ [] ∧ sep.isPrefixOf (c :: cs) then []
    else c :: beforeFirstL sep cs

def beforeFirst (sep s : String) : String :=
  ⟨beforeFirstL sep.data s.data⟩

/-- The cleanup chain of processPlantEntity (lines 377–383):
`split('(')[0].split('L.')[0].split('DC.')[0].split('Thunb.')[0]
.split('Hort')[0].trim()`. -/
def cleanNameOf (scientificName : String) : String :=
  jsTrim (beforeFirst "Hort"
    (beforeFirst "Thunb." (beforeFirst "DC." (beforeFirst "L." (beforeFirst "(" scientificName)))))

/-- Fallback retry with the original name (link-gbif.js lines
417–442) followed by the not-found return (line 444); issues one more
network call only when the cleaned name differs from the original. -/
def retryOriginal (dryRun : Bool) (entity : PlantEntity)
    (oracle : String → Option GbifMatch) (cleanName sci : String) :
    LinkStatus × Nat × PlantEntity :=
  if cleanName ≠ sci then
    match oracle sci with
    | some m2 =>
      if matchAccepted m2 then
        if confOf m2 ≥ 80 then
          (.linked ((m2.speciesKey).getD 0) ((m2.matchType).getD "") (confOf m2), 2,
            if dryRun then entity else addGbifLink entity ((m2.speciesKey).getD 0) sci)
        else (.notFound [cleanName, sci], 2, entity)
      else (.notFound [cleanName, sci], 2, entity)
    | none => (.notFound [cleanName, sci], 2, entity)
  else (.notFound [cleanName, sci], 1, entity)

/-- Function processPlantEntity from link-gbif.js (lines 360–445).
The two possible matchGbifSpecies lookups are supplied by `oracle`
(name queried ↦ parsed response, `none` for a failed request); the
returned triple is the result object's status, the number of network
calls issued, and the entity state after the run (the file write is
skipped under `--dry-run`, line 397). -/
def processPlantEntity (dryRun : Bool) (entity : PlantEntity)
    (oracle : String → Option GbifMatch) : LinkStatus × Nat × PlantEntity :=
  if hasGbifLink entity then (.skipped "already_linked", 0, entity)
  else
    let sci := (entity.scientificName).getD ""
    if sci = "" then (.skipped "no_scientific_name", 0, entity)
    else
      let cleanName := cleanNameOf sci
      match oracle cleanName with
      | some m =>
        if matchAccepted m then
          if confOf m ≥ 80 then
            (.linked ((m.speciesKey).getD 0) ((m.matchType).getD "") (confOf m), 1,
              if dryRun then entity else addGbifLink entity ((m.speciesKey).getD 0) cleanName)
          else (.lowConfidence (confOf m), 1, entity)
        else retryOriginal dryRun entity oracle cleanName sci
      | none => retryOriginal dryRun entity oracle cleanName sci

end LinkGbif

namespace LinkWikidata

open JsUtil LinkGbif

/-- Fields of a TCM profile read or written by link-wikidata.js. -/
structure WdProfile where
  sameAs : SameAsVal
  derivedFromPlant : Option String
  nameEn : Option String
  deriving DecidableEq

/-- Function hasWikidataLink (link-wikidata.js lines 199–206). -/
def hasWikidataLink (profile : WdProfile) : Bool :=
  match profile.sameAs with
  | .missing => false
  | v => v.toList.any (fun l => occursIn "wikidata.org" l.url)

/-- URL constructed by addWikidataLink (line 212); the wikipediaUrl
computed next to it in the source is never used. -/
def wikidataUrlOf (qid : String) : String :=
  "https://www.wikidata.org/wiki/" ++ qid

/-- Function addWikidataLink (link-wikidata.js lines 211–232): same
normalize-and-dedup shape as addGbifLink, with no extra identifier
property recorded. -/
def addWikidataLink (profile : WdProfile) (qid : String) : WdProfile :=
  let ls := profile.sameAs.toList
  let ls := if ls.any (fun l => l.url = wikidataUrlOf qid) then ls
    else ls ++ [JLink.jobj (wikidataUrlOf qid)]
  { profile with sameAs := .arr ls }

/-- Plant entry of the preloaded plant map (loadPlantEntities). -/
structure WdPlant where
  scientificName : Option String
  nameEn : Option String
  deriving DecidableEq

/-- Entry of the wbsearchentities response list. -/
structure WdSearchResult where
  id : String
  description : Option String
  deriving DecidableEq

/-- The plant/taxon description filter (link-wikidata.js lines
278–281): `(result.description || '').toLowerCase()` then six
substring tests. -/
def isPlantDesc (d : Option String) : Bool :=
  let s := FillTranslations.jsToLower (d.getD "")
  occursIn "plant" s || occursIn "species" s || occursIn "taxon" s
    || occursIn "herb" s || occursIn "tree" s || occursIn "flower" s

/-- Function extractQid (link-wikidata.js lines 191–194): the regex
`/Q\d+$/` — a trailing digit run preceded by Q. -/
def extractQid (uri : String) : Option String :=
  let rev := uri.data.reverse
  let digits := rev.takeWhile Char.isDigit
  if digits ≠ [] then
    match rev.drop digits.length with
    | 'Q' :: _ => some ⟨'Q' :: digits.reverse⟩
    | _ => none
  else none

/-- Outcome of processHerbProfile (status plus the payloads the claims
are about; the searchTerm recorded in the source result object is
dropped). -/
inductive WdStatus where
  | skipped (reason : String)
  | linked (qid : String) (method : String)
  | notFound (searched : List String)
  deriving DecidableEq

/-- The REST search loop over candidate terms (link-wikidata.js lines
274–297): one wbsearchentities call per term until a result passes the
description filter; returns the found QID and the number of REST calls
issued. -/
def searchTermsLoop (restOracle : String → List WdSearchResult) :
    List String → Option String × Nat
  | [] => (none, 0)
  | t :: ts =>
    match (restOracle t).find? (fun r => isPlantDesc r.description) with
    | some r => (some r.id, 1)
    | none =>
      let (res, n) := searchTermsLoop restOracle ts
      (res, n + 1)

/-- Function processHerbProfile from link-wikidata.js (lines 238–318).
Network access is supplied by oracles: `restOracle` for
wbsearchentities (empty list for a failed call) and `sparqlOracle` for
the SPARQL fallback, returning the bound item URIs.  The returned
triple is the status, the number of network calls issued, and the
profile state after the run. -/
def processHerbProfile (dryRun : Bool) (profile : WdProfile)
    (plantMap : String → Option WdPlant)
    (restOracle : String → List WdSearchResult)
    (sparqlOracle : String → List String) : WdStatus × Nat × WdProfile :=
  if hasWikidataLink profile then (.skipped "already_linked", 0, profile)
  else
    let plantRef := (profile.derivedFromPlant).getD ""
    if plantRef = "" then (.skipped "no_plant_ref", 0, profile)
    else
      match plantMap plantRef with
      | none => (.skipped "plant_not_found", 0, profile)
      | some plant =>
        let sci := (plant.scientificName).getD ""
        if sci = "" then (.skipped "no_scientific_name", 0, profile)
        else
          let cleanName := jsTrim (beforeFirst "DC." (beforeFirst "L." (beforeFirst "(" sci)))
          let searchTerms := ([some cleanName, some sci, profile.nameEn,
            plant.nameEn].filterMap id).filter (fun t => t ≠ "")
          match searchTermsLoop restOracle searchTerms with
          | (some qid, n) =>
            (.linked qid "rest_api", n,
              if dryRun then profile else addWikidataLink profile qid)
          | (none, n) =>
            match sparqlOracle cleanName with
            | [] => (.notFound searchTerms, n + 1, profile)
            | uri :: _ =>
              match extractQid uri with
              | some qid => (.linked qid "sparql", n + 1,
                  if dryRun then profile else addWikidataLink profile qid)
              | none => (.notFound searchTerms, n + 1, profile)

end LinkWikidata

namespace LinkGbif

/-- URL list of a sameAs value, for the dedup invariant. -/
def urlsOf (v : SameAsVal) : List String :=
  v.toList.map JLink.url

theorem any_url_eq_true_iff (ls : List JLink) (u : String) :
    (ls.any (fun l => l.url = u) = true) ↔ u ∈ ls.map JLink.url := by
  rw [List.any_eq_true]
  constructor
  · rintro ⟨l, hl, hlu⟩
    exact List.mem_map.mpr ⟨l, hl, by simpa using hlu⟩
  · intro hm
    obtain ⟨l, hl, hlu⟩ := List.mem_map.mp hm
    exact ⟨l, hl, by simpa using hlu⟩

theorem addGbifLink_urls_mem (e : PlantEntity) (id : Nat) (sn : String)
    (h : gbifUrl id ∈ urlsOf e.sameAs) :
    urlsOf (addGbifLink e id sn).sameAs = urlsOf e.sameAs := by
  have hany : (e.sameAs.toList.any (fun l => l.url = gbifUrl id)) = true :=
    (any_url_eq_true_iff _ _).mpr h
  rw [addGbifLink]
  simp only [hany, if_true]
  rfl

theorem addGbifLink_urls_not_mem (e : PlantEntity) (id : Nat) (sn : String)
    (h : gbifUrl id ∉ urlsOf e.sameAs) :
    urlsOf (addGbifLink e id sn).sameAs = urlsOf e.sameAs ++ [gbifUrl id] := by
  have hany : (e.sameAs.toList.any (fun l => l.url = gbifUrl id)) = false := by
    cases ha : e.sameAs.toList.any (fun l => l.url = gbifUrl id)
    · rfl
    · exact absurd ((any_url_eq_true_iff _ _).mp ha) h
  rw [addGbifLink]
  simp only [hany]
  show (e.sameAs.toList ++ [JLink.jobj (gbifUrl id)]).map JLink.url = _
  rw [List.map_append]
  rfl

theorem addGbifLink_nodup (e : PlantEntity) (id : Nat) (sn : String)
    (h : (urlsOf e.sameAs).Nodup) : (urlsOf (addGbifLink e id sn).sameAs).Nodup := by
  by_cases hm : gbifUrl id ∈ urlsOf e.sameAs
  · rw [addGbifLink_urls_mem e id sn hm]; exact h
  · rw [addGbifLink_urls_not_mem e id sn hm, List.nodup_append]
    refine ⟨h, List.nodup_singleton _, ?_⟩
    intro a ha hb
    simp only [List.mem_singleton] at hb
    subst hb
    exact hm ha

theorem foldl_addGbifLink_nodup (sn : String) (ids : List Nat) :
    ∀ e : PlantEntity, (urlsOf e.sameAs).Nodup →
      (urlsOf ((ids.foldl (fun acc i => addGbifLink acc i sn) e).sameAs)).Nodup := by
  induction ids with
  | nil => intro e h; exact h
  | cons i rest ih =>
    intro e h
    exact ih (addGbifLink e i sn) (addGbifLink_nodup e i sn h)

end LinkGbif

namespace LinkWikidata

open LinkGbif

theorem addWikidataLink_urls_mem (p : WdProfile) (qid : String)
    (h : wikidataUrlOf qid ∈ urlsOf p.sameAs) :
    urlsOf (addWikidataLink p qid).sameAs = urlsOf p.sameAs := by
  have hany : (p.sameAs.toList.any (fun l => l.url = wikidataUrlOf qid)) = true :=
    (any_url_eq_true_iff _ _).mpr h
  rw [addWikidataLink]
  simp only [hany, if_true]
  rfl

theorem addWikidataLink_urls_not_mem (p : WdProfile) (qid : String)
    (h : wikidataUrlOf qid ∉ urlsOf p.sameAs) :
    urlsOf (addWikidataLink p qid).sameAs = urlsOf p.sameAs ++ [wikidataUrlOf qid] := by
  have hany : (p.sameAs.toList.any (fun l => l.url = wikidataUrlOf qid)) = false := by
    cases ha : p.sameAs.toList.any (fun l => l.url = wikidataUrlOf qid)
    · rfl
    · exact absurd ((any_url_eq_true_iff _ _).mp ha) h
  rw [addWikidataLink]
  simp only [hany]
  show (p.sameAs.toList ++ [JLink.jobj (wikidataUrlOf qid)]).map JLink.url = _
  rw [List.map_append]
  rfl

theorem addWikidataLink_nodup (p : WdProfile) (qid : String)
    (h : (urlsOf p.sameAs).Nodup) : (urlsOf (addWikidataLink p qid).sameAs).Nodup := by
  by_cases hm : wikidataUrlOf qid ∈ urlsOf p.sameAs
  · rw [addWikidataLink_urls_mem p qid hm]; exact h
  · rw [addWikidataLink_urls_not_mem p qid hm, List.nodup_append]
    refine ⟨h, List.nodup_singleton _, ?_⟩
    intro a ha hb
    simp only [List.mem_singleton] at hb
    subst hb
    exact hm ha

theorem foldl_addWikidataLink_nodup (qids : List String) :
    ∀ p : WdProfile, (urlsOf p.sameAs).Nodup →
      (urlsOf ((qids.foldl addWikidataLink p).sameAs)).Nodup := by
  induction qids with
  | nil => intro p h; exact h
  | cons q rest ih =>
    intro p h
    exact ih (addWikidataLink p q) (addWikidataLink_nodup p q h)

end LinkWikidata

/-- C5: an entity (resp. profile) already carrying a cross-reference
whose URL contains the target domain substring makes the linker return
the already-linked result with zero network calls and the entity
unchanged — for both the GBIF and the Wikidata linker. -/
theorem C5_already_linked_no_network (dryRun : Bool) (e : LinkGbif.PlantEntity)
    (oracle : String → Option LinkGbif.GbifMatch)
    (p : LinkWikidata.WdProfile) (plantMap : String → Option LinkWikidata.WdPlant)
    (restOracle : String → List LinkWikidata.WdSearchResult)
    (sparqlOracle : String → List String)
    (hg : LinkGbif.hasGbifLink e = true) (hw : LinkWikidata.hasWikidataLink p = true) :
    LinkGbif.processPlantEntity dryRun e oracle =
      (.skipped "already_linked", 0, e)
    ∧ LinkWikidata.processHerbProfile dryRun p plantMap restOracle sparqlOracle =
      (.skipped "already_linked", 0, p) := by
  constructor
  · rw [LinkGbif.processPlantEntity, if_pos hg]
  · rw [LinkWikidata.processHerbProfile, if_pos hw]

/-- Already-linked entity and profile used by the C5 witness. -/
def gbifEntityLinked : LinkGbif.PlantEntity :=
  ⟨some "Zingiber officinale", .arr [.jobj "https://www.gbif.org/species/2757286"], none⟩

def wdProfileLinked : LinkWikidata.WdProfile :=
  ⟨.arr [.jobj "https://www.wikidata.org/wiki/Q1097047"], some "plant/ginger", some "Fresh Ginger"⟩

/-- Witness for C5 at concrete inputs. -/
theorem C5_already_linked_no_network_witness :
    LinkGbif.processPlantEntity false gbifEntityLinked (fun _ => none) =
      (.skipped "already_linked", 0, gbifEntityLinked)
    ∧ LinkWikidata.processHerbProfile false wdProfileLinked (fun _ => none)
        (fun _ => []) (fun _ => []) =
      (.skipped "already_linked", 0, wdProfileLinked) :=
  C5_already_linked_no_network false gbifEntityLinked (fun _ => none) wdProfileLinked
    (fun _ => none) (fun _ => []) (fun _ => []) (by decide) (by decide)

/-- C2 (amended): for an entity that is not already linked and has a
non-empty scientific name, a first-attempt (cleaned-name) response
with truthy matchType other than "NONE" and truthy speciesKey is
linked exactly when its confidence (defaulted to 0) is at least 80,
and below 80 it is classified lowConfidence; but an acceptable
below-80 response on the original-name retry is classified notFound,
not lowConfidence. -/
theorem C2_confidence_gate (dryRun : Bool) (e : LinkGbif.PlantEntity)
    (oracle : String → Option LinkGbif.GbifMatch) (sci : String)
    (hng : LinkGbif.hasGbifLink e = false)
    (hs : e.scientificName = some sci) (hsne : sci ≠ "") :
    (∀ m : LinkGbif.GbifMatch, oracle (LinkGbif.cleanNameOf sci) = some m →
      LinkGbif.matchAccepted m = true →
      ((LinkGbif.confOf m ≥ 80 →
        (LinkGbif.processPlantEntity dryRun e oracle).1 =
          .linked ((m.speciesKey).getD 0) ((m.matchType).getD "") (LinkGbif.confOf m))
      ∧ (LinkGbif.confOf m < 80 →
        (LinkGbif.processPlantEntity dryRun e oracle).1 =
          .lowConfidence (LinkGbif.confOf m))))
    ∧ (LinkGbif.acceptedOf (oracle (LinkGbif.cleanNameOf sci)) = false →
      LinkGbif.cleanNameOf sci ≠ sci →
      ∀ m2 : LinkGbif.GbifMatch, oracle sci = some m2 →
        LinkGbif.matchAccepted m2 = true → LinkGbif.confOf m2 < 80 →
        (LinkGbif.processPlantEntity dryRun e oracle).1 =
          .notFound [LinkGbif.cleanNameOf sci, sci]) := by
  constructor
  · intro m hm hacc
    constructor
    · intro hge
      simp [LinkGbif.processPlantEntity, hng, hs, hsne, hm, hacc, hge]
    · intro hlt
      have hnge : ¬ (LinkGbif.confOf m ≥ 80) := Int.not_le.mpr hlt
      simp [LinkGbif.processPlantEntity, hng, hs, hsne, hm, hacc, hnge]
  · intro hno hne m2 hm2 hacc2 hlt
    have hnge2 : ¬ (LinkGbif.confOf m2 ≥ 80) := Int.not_le.mpr hlt
    cases ho : oracle (LinkGbif.cleanNameOf sci) with
    | none =>
      simp [LinkGbif.processPlantEntity, LinkGbif.retryOriginal, hng, hs, hsne, ho,
        hne, hm2, hacc2, hnge2]
    | some m =>
      have haccf : LinkGbif.matchAccepted m = false := by
        simpa [LinkGbif.acceptedOf, ho] using hno
      simp [LinkGbif.processPlantEntity, LinkGbif.retryOriginal, hng, hs, hsne, ho,
        haccf, hne, hm2, hacc2, hnge2]

/-- Entity and oracle of the C2 witness: an exact match with
confidence 80 on the first attempt. -/
def gbifEntityW : LinkGbif.PlantEntity := ⟨some "Panax ginseng", .missing, none⟩

def gbifOracleW : String → Option LinkGbif.GbifMatch :=
  fun s => if s = "Panax ginseng" then some ⟨some "EXACT", some 3, some 80, none⟩ else none

/-- Witness for C2: confidence exactly 80 is linked. -/
theorem C2_confidence_gate_witness :
    (LinkGbif.processPlantEntity false gbifEntityW gbifOracleW).1 = .linked 3 "EXACT" 80 :=
  ((C2_confidence_gate false gbifEntityW gbifOracleW "Panax ginseng" (by decide) rfl
    (by decide)).1 ⟨some "EXACT", some 3, some 80, none⟩ (by decide) (by decide)).1 (by decide)

/-- Entity and oracle of the C2 counterexample: the cleaned name gets
no response, the original-name retry returns an acceptable match with
confidence 79. -/
def gbifEntityCE : LinkGbif.PlantEntity := ⟨some "Abc def (L.)", .missing, none⟩

def gbifOracleCE : String → Option LinkGbif.GbifMatch :=
  fun s => if s = "Abc def (L.)" then some ⟨some "EXACT", some 5, some 79, none⟩ else none

/-- Counterexample for C2 as stated: a match result with non-empty
matchType "EXACT", speciesKey 5 and confidence 79 arriving on the
original-name retry is classified notFound, not lowConfidence. -/
theorem C2_confidence_gate_counterexample :
    (LinkGbif.processPlantEntity false gbifEntityCE gbifOracleCE).1 =
      .notFound ["Abc def", "Abc def (L.)"]
    ∧ LinkGbif.LinkStatus.isLowConfidence
        (LinkGbif.processPlantEntity false gbifEntityCE gbifOracleCE).1 = false
    ∧ LinkGbif.acceptedOf (gbifOracleCE "Abc def (L.)") = true
    ∧ LinkGbif.confOf ⟨some "EXACT", some 5, some 79, none⟩ = 79 := by
  decide

/-- C9: adding an accepted external link appends the constructed URL
object only when no existing entry carries the identical URL, the
GBIF authority's numeric identifier is recorded in the dedicated
gbifId property, and any number of link operations of either linker
preserves freedom from duplicate URLs in the sameAs list. -/
theorem C9_link_dedup_invariant (e : LinkGbif.PlantEntity) (id : Nat) (sn : String)
    (p : LinkWikidata.WdProfile) (qid : String) (ids : List Nat) (qids : List String) :
    ((LinkGbif.gbifUrl id ∈ LinkGbif.urlsOf e.sameAs →
        LinkGbif.urlsOf (LinkGbif.addGbifLink e id sn).sameAs = LinkGbif.urlsOf e.sameAs)
      ∧ (LinkGbif.gbifUrl id ∉ LinkGbif.urlsOf e.sameAs →
        LinkGbif.urlsOf (LinkGbif.addGbifLink e id sn).sameAs =
          LinkGbif.urlsOf e.sameAs ++ [LinkGbif.gbifUrl id])
      ∧ (LinkGbif.addGbifLink e id sn).gbifId = some id)
    ∧ ((LinkWikidata.wikidataUrlOf qid ∈ LinkGbif.urlsOf p.sameAs →
        LinkGbif.urlsOf (LinkWikidata.addWikidataLink p qid).sameAs =
          LinkGbif.urlsOf p.sameAs)
      ∧ (LinkWikidata.wikidataUrlOf qid ∉ LinkGbif.urlsOf p.sameAs →
        LinkGbif.urlsOf (LinkWikidata.addWikidataLink p qid).sameAs =
          LinkGbif.urlsOf p.sameAs ++ [LinkWikidata.wikidataUrlOf qid]))
    ∧ ((LinkGbif.urlsOf e.sameAs).Nodup →
      (LinkGbif.urlsOf
        (ids.foldl (fun acc i => LinkGbif.addGbifLink acc i sn) e).sameAs).Nodup)
    ∧ ((LinkGbif.urlsOf p.sameAs).Nodup →
      (LinkGbif.urlsOf ((qids.foldl LinkWikidata.addWikidataLink p).sameAs)).Nodup) :=
  ⟨⟨LinkGbif.addGbifLink_urls_mem e id sn, LinkGbif.addGbifLink_urls_not_mem e id sn, rfl⟩,
   ⟨LinkWikidata.addWikidataLink_urls_mem p qid,
    LinkWikidata.addWikidataLink_urls_not_mem p qid⟩,
   LinkGbif.foldl_addGbifLink_nodup sn ids e,
   LinkWikidata.foldl_addWikidataLink_nodup qids p⟩

/-- Witness for C9 at concrete inputs: adding the same GBIF link twice
leaves a single copy and records gbifId; the URL list stays
duplicate-free. -/
theorem C9_link_dedup_invariant_witness :
    LinkGbif.urlsOf (LinkGbif.addGbifLink
        (LinkGbif.addGbifLink ⟨some "Panax ginseng", .missing, none⟩ 3 "Panax ginseng")
        3 "Panax ginseng").sameAs = ["https://www.gbif.org/species/3"]
    ∧ (LinkGbif.addGbifLink ⟨some "Panax ginseng", .missing, none⟩ 3 "Panax ginseng").gbifId =
      some 3
    ∧ (LinkGbif.urlsOf (([3, 3] : List Nat).foldl
        (fun acc i => LinkGbif.addGbifLink acc i "Panax ginseng")
        (⟨some "Panax ginseng", .missing, none⟩ : LinkGbif.PlantEntity)).sameAs).Nodup := by
  refine ⟨?_, (C9_link_dedup_invariant ⟨some "Panax ginseng", .missing, none⟩ 3 "Panax ginseng"
    ⟨.missing, none, none⟩ "Q1" [] []).1.2.2, ?_⟩
  · have h1 := (C9_link_dedup_invariant ⟨some "Panax ginseng", .missing, none⟩ 3 "Panax ginseng"
      ⟨.missing, none, none⟩ "Q1" [] []).1.2.1 (by decide)
    have h2 := (C9_link_dedup_invariant
      (LinkGbif.addGbifLink ⟨some "Panax ginseng", .missing, none⟩ 3 "Panax ginseng")
      3 "Panax ginseng" ⟨.missing, none, none⟩ "Q1" [] []).1.1 (by rw [h1]; decide)
    rw [h2, h1]
    decide
  · exact (C9_link_dedup_invariant ⟨some "Panax ginseng", .missing, none⟩ 3 "Panax ginseng"
      ⟨.missing, none, none⟩ "Q1" [3, 3] []).2.2.1 (by decide)

namespace BuildIndex
open JsUtil

/-- Plant record as produced by buildPlantIndex (build-index.js):
slug, name, commonName, scientificName, family, image. -/
structure IdxPlant where
  slug : String
  name : LangMap
  commonName : LangMap
  scientificName : Option String
  family : Option String
  image : Option String
deriving DecidableEq

/-- TCM herb record as produced by buildTcmIndex: slug, category
(already resolved through TCM_CATEGORY_MAP), plantSlug (null when the
profile has no usable derivedFromPlant reference), name, pinyin,
chineseName, hasNature, hasFlavor, entersMeridian. -/
structure IdxTcm where
  slug : String
  category : String
  plantSlug : Option String
  name : LangMap
  pinyin : Option String
  chineseName : Option String
  hasNature : Option String
  hasFlavor : Option String
  entersMeridian : Option String
deriving DecidableEq

/-- One entry of the merged index. For plant-only entries the
profile-borne keys (tcmSlug, pinyin, chineseName, hasNature,
hasFlavor, entersMeridian) are absent, modelled as none. -/
structure MergedEntry where
  slug : Option String
  tcmSlug : Option String
  category : String
  type : String
  name : LangMap
  commonName : LangMap
  scientificName : Option String
  family : Option String
  pinyin : Option String
  chineseName : Option String
  hasNature : Option String
  hasFlavor : Option String
  entersMeridian : Option String
  image : Option String
deriving DecidableEq

/-- The five keys of the categoryCounts object. -/
structure CategoryCounts where
  chineseHerbs : Nat
  westernHerbs : Nat
  vitamins : Nat
  minerals : Nat
  nutrients : Nat
deriving DecidableEq

/-- categoryCounts[cat]++ guarded by categoryCounts[cat] !== undefined:
only the five initialised keys are ever counted. -/
def bumpKnown (c : CategoryCounts) (cat : String) : CategoryCounts :=
  if cat = "chinese-herbs" then { c with chineseHerbs := c.chineseHerbs + 1 }
  else if cat = "western-herbs" then { c with westernHerbs := c.westernHerbs + 1 }
  else if cat = "vitamins" then { c with vitamins := c.vitamins + 1 }
  else if cat = "minerals" then { c with minerals := c.minerals + 1 }
  else if cat = "nutrients" then { c with nutrients := c.nutrients + 1 }
  else c

/-- plantMap.get(tcm.plantSlug): a JS Map keeps the last write per
key, so lookup finds the last plant with the slug. -/
def findPlant (plants : List IdxPlant) (slug : Option String) : Option IdxPlant :=
  match slug with
  | none => none
  | some s => plants.reverse.find? (fun p => p.slug == s)

/-- x || null on a JS string-or-null value: the empty string is falsy
and collapses to null. -/
def orNullS : Option String → Option String
  | some "" => none
  | x => x

/-- The herb entry pushed for each TCM profile. plant?.name and
plant?.commonName are objects, truthy whenever the plant is found. -/
def mergedHerbEntry (plants : List IdxPlant) (tcm : IdxTcm) : MergedEntry :=
  let plant := findPlant plants tcm.plantSlug
  { slug := tcm.plantSlug
    tcmSlug := some tcm.slug
    category := tcm.category
    type := "herb"
    name := match plant with | some p => p.name | none => tcm.name
    commonName := match plant with | some p => p.commonName | none => []
    scientificName := match plant with | some p => orNullS p.scientificName | none => none
    family := match plant with | some p => orNullS p.family | none => none
    pinyin := tcm.pinyin
    chineseName := tcm.chineseName
    hasNature := tcm.hasNature
    hasFlavor := tcm.hasFlavor
    entersMeridian := tcm.entersMeridian
    image := match plant with | some p => orNullS p.image | none => none }

def MINERAL_SLUGS : List String :=
  ["calcium", "copper", "iodine", "iron", "magnesium", "manganese", "potassium",
   "selenium", "zinc"]

def NUTRIENT_SUBSTRINGS : List String :=
  ["choline", "chondroitin", "glucosamine", "inositol", "lecithin", "lysine",
   "melatonin", "methionine"]

/-- Category assigned to a plant without a TCM profile, from slug
patterns. -/
def plantOnlyCategory (slug : String) : String :=
  if occursIn "vitamin-" slug then "vitamins"
  else if MINERAL_SLUGS.contains slug then "minerals"
  else if NUTRIENT_SUBSTRINGS.any (fun n => occursIn n slug) then "nutrients"
  else "western-herbs"

/-- The entry pushed for a plant with no TCM profile. -/
def plantOnlyEntry (p : IdxPlant) : MergedEntry :=
  { slug := some p.slug
    tcmSlug := none
    category := plantOnlyCategory p.slug
    type := "plant"
    name := p.name
    commonName := p.commonName
    scientificName := p.scientificName
    family := p.family
    pinyin := none
    chineseName := none
    hasNature := none
    hasFlavor := none
    entersMeridian := none
    image := p.image }

/-- buildMergedIndex: one herb entry per TCM profile (found plant or
not), then one plant entry per plant whose slug is referenced by no
profile; category counts accumulated in the same order. -/
def buildMergedIndex (plants : List IdxPlant) (tcmHerbs : List IdxTcm) :
    List MergedEntry × CategoryCounts :=
  let fromTcm := tcmHerbs.map (mergedHerbEntry plants)
  let counts1 := tcmHerbs.foldl (fun c t => bumpKnown c t.category) ⟨0, 0, 0, 0, 0⟩
  let tcmPlantSlugs := tcmHerbs.map IdxTcm.plantSlug
  let rest := plants.filter (fun p => !(tcmPlantSlugs.contains (some p.slug)))
  let fromPlants := rest.map plantOnlyEntry
  let counts2 := rest.foldl (fun c p => bumpKnown c (plantOnlyCategory p.slug)) counts1
  (fromTcm ++ fromPlants, counts2)

/-- Ten plants of the C3 scenario. -/
def scenarioPlants : List IdxPlant :=
  (List.range 10).map (fun i =>
    ⟨"plant-" ++ toString (i + 1), [("en", "Plant " ++ toString (i + 1))], [],
     some ("Scientia " ++ toString (i + 1)), none, none⟩)

/-- Six profiles of the C3 scenario: five reference the distinct
plants plant-1 … plant-5, the sixth references the non-existent
plant-ghost. -/
def scenarioTcm : List IdxTcm :=
  ((List.range 5).map (fun i =>
    ⟨"herb-" ++ toString (i + 1), "chinese-herbs", some ("plant-" ++ toString (i + 1)),
     [("en", "Herb " ++ toString (i + 1))], none, none, none, none, none⟩))
  ++ [⟨"herb-6", "chinese-herbs", some "plant-ghost",
      [("en", "Herb 6")], none, none, none, none, none⟩]

end BuildIndex

theorem BuildIndex.mergedHerbEntry_type (plants : List BuildIndex.IdxPlant)
    (t : BuildIndex.IdxTcm) : (BuildIndex.mergedHerbEntry plants t).type = "herb" := rfl

theorem BuildIndex.plantOnlyEntry_type (p : BuildIndex.IdxPlant) :
    (BuildIndex.plantOnlyEntry p).type = "plant" := rfl

/-- C3 (amended): the merged index of the Index Builder has one entry
of type "herb" per TCM profile — including a profile whose plant
reference resolves to no plant, which becomes a herb entry with null
plant data rather than being logged separately — plus one entry of
type "plant" per plant referenced by no profile. In the 10-plants /
6-profiles scenario (5 profiles referencing distinct existing plants,
1 referencing a non-existent plant) the merged index therefore has 11
entries: 6 of type "herb" and 5 of type "plant", with category counts
chinese-herbs 6 and western-herbs 5. -/
theorem C3_index_builder_merge_counts :
    (∀ (plants : List BuildIndex.IdxPlant) (tcmHerbs : List BuildIndex.IdxTcm),
      ((BuildIndex.buildMergedIndex plants tcmHerbs).1.length =
        tcmHerbs.length +
          (plants.filter (fun p =>
            !((tcmHerbs.map BuildIndex.IdxTcm.plantSlug).contains (some p.slug)))).length)
      ∧ ((BuildIndex.buildMergedIndex plants tcmHerbs).1.countP
            (fun e => e.type == "herb") = tcmHerbs.length)
      ∧ ((BuildIndex.buildMergedIndex plants tcmHerbs).1.countP
            (fun e => e.type == "plant") =
          (plants.filter (fun p =>
            !((tcmHerbs.map BuildIndex.IdxTcm.plantSlug).contains (some p.slug)))).length))
    ∧ (BuildIndex.buildMergedIndex BuildIndex.scenarioPlants BuildIndex.scenarioTcm).1.length = 11
    ∧ (BuildIndex.buildMergedIndex BuildIndex.scenarioPlants BuildIndex.scenarioTcm).1.countP
        (fun e => e.type == "herb") = 6
    ∧ (BuildIndex.buildMergedIndex BuildIndex.scenarioPlants BuildIndex.scenarioTcm).1.countP
        (fun e => e.type == "plant") = 5
    ∧ (BuildIndex.buildMergedIndex BuildIndex.scenarioPlants BuildIndex.scenarioTcm).2 =
        ⟨6, 5, 0, 0, 0⟩ := by
  refine ⟨fun plants tcmHerbs => ⟨?_, ?_, ?_⟩, by decide, by decide, by decide, by decide⟩
  · simp [BuildIndex.buildMergedIndex]
  · simp [BuildIndex.buildMergedIndex, List.countP_append, List.countP_map,
      Function.comp_def, BuildIndex.mergedHerbEntry_type, BuildIndex.plantOnlyEntry_type]
  · simp [BuildIndex.buildMergedIndex, List.countP_append, List.countP_map,
      Function.comp_def, BuildIndex.mergedHerbEntry_type, BuildIndex.plantOnlyEntry_type]

/-- Counterexample for C3 as stated: in the 10-plants / 6-profiles
scenario the merged index has 11 entries, not 10, and 6 herb entries,
not 5; the orphaned profile is present as a merged herb entry whose
slug is the non-existent plant reference. -/
theorem C3_index_builder_merge_counterexample :
    (BuildIndex.buildMergedIndex BuildIndex.scenarioPlants BuildIndex.scenarioTcm).1.length = 11
    ∧ ¬((BuildIndex.buildMergedIndex BuildIndex.scenarioPlants
        BuildIndex.scenarioTcm).1.length = 10)
    ∧ ¬((BuildIndex.buildMergedIndex BuildIndex.scenarioPlants
        BuildIndex.scenarioTcm).1.countP (fun e => e.type == "herb") = 5)
    ∧ ((BuildIndex.buildMergedIndex BuildIndex.scenarioPlants
        BuildIndex.scenarioTcm).1.filter
        (fun e => e.slug == some "plant-ghost")).length = 1 := by
  decide
